import Mathlib

/-!
# Verification of the freeseek multi-provider gateway core

Shallow embedding of the credential pool, request admission queue,
tool-call parser, stream converters and provider adapters of the
freeseek repository, together with proofs settling the specification
claims about them.
-/

namespace Freeseek

/-! ## Credential pool (src/freeseek/src/main/credential-pool.ts)

The pool is a TypeScript class mutating `entries`, `currentIndex` and
`strategy` in place and persisting `entries` to a JSON file via `save()`.
We model the in-memory object as a `Pool` structure, the credential file
as a `Store`, and each method as a pure function from (pool, store) to
(pool, store).  `JSON.stringify`/`JSON.parse` round-tripping of the
entries array is modelled structurally by the `StoredCreds.arrayForm`
constructor. -/

inductive CredStatus where
  | active
  | expired
  | failed
deriving DecidableEq, Repr

/-- A provider credential payload.  The pool code only reads the optional
`capturedAt` field of the payload; all other key/value pairs are carried
verbatim in `fields`. -/
structure Creds where
  capturedAt : Option String
  fields : List (String × String)
deriving DecidableEq, Repr

structure CredEntry where
  id : String
  credentials : Creds
  status : CredStatus
  failCount : Nat
  lastUsed : Option String
  lastError : Option String
  addedAt : String
deriving DecidableEq, Repr

instance : Inhabited CredEntry :=
  ⟨⟨"", ⟨none, []⟩, .active, 0, none, none, ""⟩⟩

inductive PoolStrategy where
  | roundRobin
  | random
deriving DecidableEq, Repr

structure Pool where
  entries : List CredEntry
  currentIndex : Nat
  strategy : PoolStrategy
deriving DecidableEq, Repr

/-- Content of the credential file: a legacy single payload object, the
array form written by `save()`, or some other JSON value (which `load()`
ignores). `none` models an absent file. -/
inductive StoredCreds where
  | legacy (c : Creds)
  | arrayForm (es : List CredEntry)
  | otherJson
deriving DecidableEq, Repr

abbrev Store := Option StoredCreds

def isActive (e : CredEntry) : Bool := e.status == .active

def Pool.activeList (p : Pool) : List CredEntry := p.entries.filter isActive

/-- `count()` -/
def Pool.count (p : Pool) : Nat := p.entries.length

/-- `activeCount()` -/
def Pool.activeCount (p : Pool) : Nat := (p.entries.filter isActive).length

/-- `save()`: writes the entries array (and nothing else — neither the
strategy nor the cursor are serialized) to the credential file. -/
def save (entries : List CredEntry) : Store := some (.arrayForm entries)

/-- JS `x || dflt` for an optional string field: the default is used both
when the field is absent and when it is the (falsy) empty string. -/
def strTruthyOr (o : Option String) (dflt : String) : String :=
  match o with
  | some s => if s == "" then dflt else s
  | none => dflt

def stampEntry (now : String) (e : CredEntry) : CredEntry :=
  { e with lastUsed := some now }

/-- Stamp `lastUsed` on the k-th Active entry of the list (the in-place
`entry.lastUsed = …` mutation performed by `next()` on the element the
filtered view shares with `this.entries`). -/
def stampNthActive (now : String) : List CredEntry → Nat → List CredEntry
  | [], _ => []
  | e :: rest, k =>
    if isActive e then
      match k with
      | 0 => stampEntry now e :: rest
      | k + 1 => e :: stampNthActive now rest k
    else
      e :: stampNthActive now rest k

/-- `next()`.  The ambient nondeterminism of `Math.random()` is modelled by
the extra argument `r`, reduced modulo the number of active entries (the
source computes `Math.floor(Math.random() * active.length)`, an arbitrary
index below `active.length`). -/
def Pool.next (p : Pool) (now : String) (r : Nat) : Option CredEntry × Pool :=
  let active := p.entries.filter isActive
  if active.length = 0 then (none, p)
  else
    let kp : Nat × Pool :=
      match p.strategy with
      | .random => (r % active.length, p)
      | .roundRobin =>
          let i := p.currentIndex % active.length
          (i, { p with currentIndex := (i + 1) % active.length })
    let chosen := active.getD kp.1 default
    (some (stampEntry now chosen),
     { kp.2 with entries := stampNthActive now p.entries kp.1 })

/-- `entries.find(e => e.id === id)` -/
def findById (id : String) (es : List CredEntry) : Option CredEntry :=
  es.find? (fun e => e.id == id)

/-- Update the first entry whose id matches (the aliasing `entry.… = …`
mutation on the object returned by `find`). -/
def updateFirstWithId (id : String) (f : CredEntry → CredEntry) :
    List CredEntry → List CredEntry
  | [] => []
  | e :: rest =>
      if e.id == id then f e :: rest else e :: updateFirstWithId id f rest

/-- The per-entry effect of one `markFailed` call. -/
def mfStep (err : String) (e : CredEntry) : CredEntry :=
  { e with failCount := e.failCount + 1,
           lastError := some err,
           status := if e.failCount + 1 ≥ 5 then .failed else e.status }

/-- `markFailed(id, error)` -/
def Pool.markFailed (p : Pool) (st : Store) (id err : String) : Pool × Store :=
  match findById id p.entries with
  | none => (p, st)
  | some _ =>
      let entries' := updateFirstWithId id (mfStep err) p.entries
      ({ p with entries := entries' }, save entries')

/-- `markSuccess(id)` -/
def Pool.markSuccess (p : Pool) (st : Store) (id : String) : Pool × Store :=
  match findById id p.entries with
  | none => (p, st)
  | some _ =>
      let entries' := updateFirstWithId id (fun e =>
        { e with failCount := 0, lastError := none,
                 status := if e.status == .failed then .active else e.status })
        p.entries
      ({ p with entries := entries' }, save entries')

/-- `markExpired(id)` -/
def Pool.markExpired (p : Pool) (st : Store) (id : String) : Pool × Store :=
  match findById id p.entries with
  | none => (p, st)
  | some _ =>
      let entries' := updateFirstWithId id
        (fun e => { e with status := .expired }) p.entries
      ({ p with entries := entries' }, save entries')

/-- `resetStatus(id)` -/
def Pool.resetStatus (p : Pool) (st : Store) (id : String) : Pool × Store :=
  match findById id p.entries with
  | none => (p, st)
  | some _ =>
      let entries' := updateFirstWithId id
        (fun e => { e with status := .active, failCount := 0, lastError := none })
        p.entries
      ({ p with entries := entries' }, save entries')

/-- `add(creds)`.  `freshId` models `crypto.randomUUID()` and `now` models
`new Date().toISOString()`. -/
def Pool.add (p : Pool) (st : Store) (creds : Creds) (freshId now : String) :
    Pool × Store :=
  let entry : CredEntry :=
    { id := freshId, credentials := creds, status := .active, failCount := 0,
      lastUsed := none, lastError := none,
      addedAt := strTruthyOr creds.capturedAt now }
  let entries' := p.entries ++ [entry]
  ({ p with entries := entries' }, save entries')

/-- `set(creds)`: replace when the pool holds at most one entry, append
otherwise. -/
def Pool.set (p : Pool) (st : Store) (creds : Creds) (freshId now : String) :
    Pool × Store :=
  if p.entries.length ≤ 1 then
    let keptId :=
      match p.entries.head? with
      | some e => if e.id == "" then freshId else e.id
      | none => freshId
    let entry : CredEntry :=
      { id := keptId, credentials := creds, status := .active, failCount := 0,
        lastUsed := none, lastError := none,
        addedAt := strTruthyOr creds.capturedAt now }
    ({ p with entries := [entry] }, save [entry])
  else
    p.add st creds freshId now

/-- `remove(id)` -/
def Pool.remove (p : Pool) (st : Store) (id : String) : Pool × Store × Bool :=
  match p.entries.findIdx? (fun e => e.id == id) with
  | none => (p, st, false)
  | some idx =>
      let entries' := p.entries.eraseIdx idx
      let ci := if p.currentIndex ≥ entries'.length then 0 else p.currentIndex
      ({ p with entries := entries', currentIndex := ci }, save entries', true)

/-- `reorder(ids)`: stable re-sort to the given id sequence, appending the
entries not mentioned. -/
def Pool.reorder (p : Pool) (st : Store) (ids : List String) : Pool × Store :=
  let ordered := ids.foldl (fun acc id =>
    match findById id p.entries with
    | some e => acc ++ [e]
    | none => acc) []
  let ordered' := ordered ++ p.entries.filter (fun e => !ordered.contains e)
  ({ p with entries := ordered' }, save ordered')

/-- `setStrategy(s)`: mutates only the in-memory strategy field.  Note the
source performs no `save()` call here. -/
def Pool.setStrategy (p : Pool) (st : Store) (s : PoolStrategy) : Pool × Store :=
  ({ p with strategy := s }, st)

/-- `load()`: absent file and unparseable/non-object JSON are ignored; an
array is adopted as the entries; a legacy single object is wrapped into a
one-element pool which is immediately saved back. -/
def Pool.load (p : Pool) (st : Store) (freshId now : String) : Pool × Store :=
  match st with
  | none => (p, st)
  | some (.arrayForm es) => ({ p with entries := es }, st)
  | some (.legacy c) =>
      let entry : CredEntry :=
        { id := freshId, credentials := c, status := .active, failCount := 0,
          lastUsed := none, lastError := none,
          addedAt := strTruthyOr c.capturedAt now }
      ({ p with entries := [entry] }, save [entry])
  | some .otherJson => (p, st)

/-- `n` successive `next()` calls (round-robin usage passes a fixed dummy
random seed; the strategy ignores it). -/
def Pool.nextSeq (p : Pool) (now : String) : Nat → List (Option CredEntry) × Pool
  | 0 => ([], p)
  | n + 1 =>
      let step := p.next now 0
      let rest := step.2.nextSeq now n
      (step.1 :: rest.1, rest.2)

/-- `n` successive `markFailed(id, err)` calls. -/
def iterMarkFailed : Nat → Pool → Store → String → String → Pool × Store
  | 0, p, st, _, _ => (p, st)
  | n + 1, p, st, id, err =>
      let step := p.markFailed st id err
      iterMarkFailed n step.1 step.2 id err

/-- Replace the element at index `k` by its image under `f` (no-op when the
index is out of range). -/
def modifyIdx (f : α → α) : Nat → List α → List α
  | _, [] => []
  | 0, a :: rest => f a :: rest
  | k + 1, a :: rest => a :: modifyIdx f k rest

/-- The persisted store is in sync with the in-memory pool. -/
def inSync (p : Pool) (st : Store) : Prop := st = some (.arrayForm p.entries)

/-- A concrete active entry used by witnesses. -/
def witEntry : CredEntry :=
  { id := "a", credentials := ⟨none, []⟩, status := .active, failCount := 0,
    lastUsed := none, lastError := none, addedAt := "t0" }

/-- A second concrete active entry used by witnesses. -/
def witEntryB : CredEntry :=
  { id := "b", credentials := ⟨none, []⟩, status := .active, failCount := 0,
    lastUsed := none, lastError := none, addedAt := "t1" }

/-- A two-entry round-robin pool whose rotation cursor sits at 1 (the state
reached after one prior `next()` call). -/
def poolCursorOne : Pool := { entries := [witEntry, witEntryB], currentIndex := 1,
                              strategy := .roundRobin }

/-- The entry `load()` builds when migrating a legacy single-object file. -/
def wrapEntry (c : Creds) (freshId now : String) : CredEntry :=
  { id := freshId, credentials := c, status := .active, failCount := 0,
    lastUsed := none, lastError := none,
    addedAt := strTruthyOr c.capturedAt now }

/-! ## Request admission queue (src/freeseek/src/main/request-queue.ts)

`RequestQueue.enqueue`/`processQueue` for a single provider key are
embedded as a discrete-event simulation.  JS timers and promise
continuations become scheduled events: `pendingEnq` holds the future
`enqueue()` calls of the scenario, `pendingDone` the completions of
started tasks (each admitted task of duration `d` completes `d` ms after
admission, and its `.finally` handler re-pumps the queue), and `timerAt`
the single coalesced deferred re-attempt timer. -/

/-- Simulation state.  `queue` holds `(taskId, duration)` FIFO;
`admitted`/`resolved` record `(taskId, time)` in event order;
`pendingDone` entries carry a `repump` flag — false for tasks started on
the unlimited path, which has no `.finally` re-pump. -/
structure QSim where
  queue : List (Nat × Nat)
  processing : Nat
  timestamps : List Nat
  timerAt : Option Nat
  pendingEnq : List (Nat × Nat × Nat)
  pendingDone : List (Nat × Nat × Bool)
  admitted : List (Nat × Nat)
  resolved : List (Nat × Nat)
deriving DecidableEq, Repr

/-- `processQueue(providerId)` at current time `now`, for configured cap
`cfg` (`maxPerMinute`; 0 or negative means unlimited). -/
def processQueue (cfg : Int) (s : QSim) (now : Nat) : QSim :=
  match s.queue with
  | [] => s
  | task :: rest =>
      if cfg ≤ 0 then
        { s with queue := rest,
                 admitted := s.admitted ++ [(task.1, now)],
                 pendingDone := s.pendingDone ++ [(now + task.2, task.1, false)] }
      else
        let recentTs := s.timestamps.filter (fun t => now - t < 60000)
        if recentTs.length ≥ cfg.toNat then
          match recentTs with
          | [] => { s with timestamps := recentTs }
          | oldest :: _ =>
              if s.timerAt.isSome then { s with timestamps := recentTs }
              else { s with timestamps := recentTs,
                            timerAt := some (oldest + 60000 + 100) }
        else
          { s with queue := rest,
                   processing := s.processing + 1,
                   timestamps := recentTs ++ [now],
                   admitted := s.admitted ++ [(task.1, now)],
                   pendingDone := s.pendingDone ++ [(now + task.2, task.1, true)] }

/-- Dispatch the event scheduled at time `T`: an `enqueue()` call, a task
completion (whose `.finally` re-pumps unless started on the unlimited
path), or the deferred timer. -/
def dispatch (cfg : Int) (s : QSim) (T : Nat) : QSim :=
  match s.pendingEnq.find? (fun e => e.1 == T) with
  | some e =>
      let s1 := { s with pendingEnq := s.pendingEnq.eraseP (fun x => x.1 == T) }
      if cfg ≤ 0 then
        { s1 with admitted := s1.admitted ++ [(e.2.1, T)],
                  pendingDone := s1.pendingDone ++ [(T + e.2.2, e.2.1, false)] }
      else
        processQueue cfg { s1 with queue := s1.queue ++ [(e.2.1, e.2.2)] } T
  | none =>
    match s.pendingDone.find? (fun e => e.1 == T) with
    | some e =>
        let s1 := { s with pendingDone := s.pendingDone.eraseP (fun x => x.1 == T),
                           resolved := s.resolved ++ [(e.2.1, T)] }
        if e.2.2 then
          processQueue cfg { s1 with processing := s1.processing - 1 } T
        else s1
    | none =>
        if s.timerAt == some T then
          processQueue cfg { s with timerAt := none } T
        else s

/-- Earliest pending event time, if any. -/
def minTime? (s : QSim) : Option Nat :=
  let ts := s.pendingEnq.map (·.1) ++ s.pendingDone.map (·.1) ++ s.timerAt.toList
  ts.foldl (fun acc t =>
    match acc with
    | none => some t
    | some m => some (min m t)) none

/-- Run the event loop for at most `fuel` events. -/
def runSim (cfg : Int) : Nat → QSim → QSim
  | 0, s => s
  | n + 1, s =>
      match minTime? s with
      | none => s
      | some T => runSim cfg n (dispatch cfg s T)

/-- The C4 scenario: `maxPerMinute = 3`, five tasks enqueued in rapid
succession (at 0..4 ms), each taking 5 ms. -/
def c4Scenario : QSim :=
  { queue := [], processing := 0, timestamps := [], timerAt := none,
    pendingEnq := [(0, 1, 5), (1, 2, 5), (2, 3, 5), (3, 4, 5), (4, 5, 5)],
    pendingDone := [], admitted := [], resolved := [] }

def c4Result : QSim := runSim 3 20 c4Scenario

/-! ## Character and string utilities shared by the parsing embeddings

The tool-call extractor and the stream converters operate on JS strings.
They are embedded over `List Char`; JS regexp classes, `trim`,
`toLowerCase` (applied only to ASCII tag literals), `includes`, `split`
and `startsWith` are given explicit definitions below. -/

/-- The JS regexp `\s` class (also the set trimmed by `String.prototype.trim`,
up to the line/paragraph separators included here). -/
def isJsWhitespace (c : Char) : Bool :=
  c == ' ' || c == '\t' || c == '\n' || c == '\r' ||
  c == '\x0b' || c == '\x0c' ||
  c.toNat == 0xa0 || c.toNat == 0x1680 ||
  (0x2000 <= c.toNat && c.toNat <= 0x200a) ||
  c.toNat == 0x2028 || c.toNat == 0x2029 || c.toNat == 0x202f ||
  c.toNat == 0x205f || c.toNat == 0x3000 || c.toNat == 0xfeff

/-- JS `String.prototype.trim` on a char list. -/
def trimJsList (cs : List Char) : List Char :=
  ((cs.dropWhile isJsWhitespace).reverse.dropWhile isJsWhitespace).reverse

/-- JS `String.prototype.trim`. -/
def trimJs (s : String) : String := String.mk (trimJsList s.toList)

/-- ASCII lower-casing — the only characters the source ever lower-cases
are tag names and SSE field names, all ASCII. -/
def asciiLower (c : Char) : Char :=
  if 'A' ≤ c ∧ c ≤ 'Z' then Char.ofNat (c.toNat + 32) else c

/-- `cs.toLowerCase().startsWith(lit)` for a lower-case ASCII literal. -/
def lcStartsWith (cs lit : List Char) : Bool :=
  match lit, cs with
  | [], _ => true
  | _ :: _, [] => false
  | l :: ls, c :: rest => asciiLower c == l && lcStartsWith rest ls

/-- `lit.startsWith(cs.toLowerCase())`: the buffer is a prefix of the
lower-case literal. -/
def lcIsPrefOfLit (cs lit : List Char) : Bool :=
  match cs, lit with
  | [], _ => true
  | _ :: _, [] => false
  | c :: rest, l :: ls => asciiLower c == l && lcIsPrefOfLit rest ls

/-- `cs.toLowerCase().includes(lit)` for a lower-case ASCII literal. -/
def lcContains (cs lit : List Char) : Bool :=
  match cs with
  | [] => lit.isEmpty
  | _ :: rest => lcStartsWith cs lit || lcContains rest lit

/-- Case-sensitive: `cs` starts with `lit`. -/
def litAt (cs lit : List Char) : Bool :=
  match lit, cs with
  | [], _ => true
  | _ :: _, [] => false
  | l :: ls, c :: rest => c == l && litAt rest ls

/-- Split around the first (case-sensitive) occurrence of `lit`;
`none` when absent.  `isSome` is JS `includes`. -/
def splitAtLitCS (cs lit : List Char) : Option (List Char × List Char) :=
  match cs with
  | [] => if lit.isEmpty then some ([], []) else none
  | c :: rest =>
      if litAt cs lit then some ([], cs.drop lit.length)
      else
        match splitAtLitCS rest lit with
        | some (b, a) => some (c :: b, a)
        | none => none

/-- Split around the first case-insensitive occurrence of `lit` (a
lower-case ASCII literal). -/
def splitAtLcLit (cs lit : List Char) : Option (List Char × List Char) :=
  match cs with
  | [] => if lit.isEmpty then some ([], []) else none
  | c :: rest =>
      if lcStartsWith cs lit then some ([], cs.drop lit.length)
      else
        match splitAtLcLit rest lit with
        | some (b, a) => some (c :: b, a)
        | none => none

/-- JS `s.split(lit).pop()`: the text after the last occurrence of `lit`
(`s` itself when `lit` does not occur).  Fuel-driven; `s.length + 1` is
always enough for a nonempty `lit`. -/
def afterLastOcc : Nat → List Char → List Char → List Char
  | 0, cs, _ => cs
  | fuel + 1, cs, lit =>
      match splitAtLitCS cs lit with
      | none => cs
      | some (_, a) => afterLastOcc fuel a lit

/-- Greedy run of decimal digits. -/
def takeDigits : List Char → List Char × List Char
  | [] => ([], [])
  | c :: rest =>
      if '0' ≤ c ∧ c ≤ '9' then
        let r := takeDigits rest
        (c :: r.1, r.2)
      else ([], c :: rest)

/-! ## JSON (the behaviour of JS `JSON.parse` / `JSON.stringify`)

Needed by the tool-call extractor (argument validation and the
`{"raw": …}` wrapping) and by both stream converters (frame decoding).
Numbers are kept as their lexemes — the gateway never reads a numeric
value, only JS truthiness, which for a number is "is not zero". -/

inductive Json where
  | null
  | bool (b : Bool)
  | num (lexeme : String)
  | str (s : String)
  | arr (xs : List Json)
  | obj (kvs : List (String × Json))

/-- JSON's own whitespace (RFC 8259: space, tab, LF, CR). -/
def isJsonWs (c : Char) : Bool :=
  c == ' ' || c == '\t' || c == '\n' || c == '\r'

def skipJsonWs : List Char → List Char
  | [] => []
  | c :: rest => if isJsonWs c then skipJsonWs rest else c :: rest

def hexVal (c : Char) : Option Nat :=
  if '0' ≤ c ∧ c ≤ '9' then some (c.toNat - '0'.toNat)
  else if 'a' ≤ c ∧ c ≤ 'f' then some (c.toNat - 'a'.toNat + 10)
  else if 'A' ≤ c ∧ c ≤ 'F' then some (c.toNat - 'A'.toNat + 10)
  else none

/-- JSON string body (after the opening quote): escapes and the ban on raw
control characters, as in `JSON.parse`. -/
def jsonStrBody : Nat → List Char → List Char → Option (String × List Char)
  | 0, _, _ => none
  | fuel + 1, acc, cs =>
      match cs with
      | [] => none
      | '"' :: rest => some (String.mk acc.reverse, rest)
      | '\\' :: esc :: rest =>
          match esc with
          | '"' => jsonStrBody fuel ('"' :: acc) rest
          | '\\' => jsonStrBody fuel ('\\' :: acc) rest
          | '/' => jsonStrBody fuel ('/' :: acc) rest
          | 'b' => jsonStrBody fuel ('\x08' :: acc) rest
          | 'f' => jsonStrBody fuel ('\x0c' :: acc) rest
          | 'n' => jsonStrBody fuel ('\n' :: acc) rest
          | 'r' => jsonStrBody fuel ('\r' :: acc) rest
          | 't' => jsonStrBody fuel ('\t' :: acc) rest
          | 'u' =>
              match rest with
              | a :: b :: c :: d :: rest2 =>
                  match hexVal a, hexVal b, hexVal c, hexVal d with
                  | some x, some y, some z, some w =>
                      jsonStrBody fuel
                        (Char.ofNat (((x * 16 + y) * 16 + z) * 16 + w) :: acc) rest2
                  | _, _, _, _ => none
              | _ => none
          | _ => none
      | '\\' :: [] => none
      | c :: rest =>
          if c.toNat < 0x20 then none else jsonStrBody fuel (c :: acc) rest

/-- Fraction part `(.digits)?` of a JSON number. -/
def jsonNumFrac (cs : List Char) : Option (List Char × List Char) :=
  match cs with
  | '.' :: r =>
      let d := takeDigits r
      if d.1.isEmpty then none else some ('.' :: d.1, d.2)
  | _ => some ([], cs)

/-- Exponent part `([eE][+-]?digits)?` of a JSON number. -/
def jsonNumExp (cs : List Char) : Option (List Char × List Char) :=
  match cs with
  | c :: r =>
      if c == 'e' || c == 'E' then
        let sr : List Char × List Char :=
          match r with
          | s :: r2 => if s == '+' || s == '-' then ([s], r2) else ([], r)
          | [] => ([], [])
        let d := takeDigits sr.2
        if d.1.isEmpty then none else some (c :: (sr.1 ++ d.1), d.2)
      else some ([], cs)
  | [] => some ([], [])

/-- Integer part `-?(0|[1-9][0-9]*)` of a JSON number. -/
def jsonNumInt (cs : List Char) : Option (List Char × List Char) :=
  match cs with
  | '0' :: r => some (['0'], r)
  | c :: r =>
      if '1' ≤ c ∧ c ≤ '9' then
        let d := takeDigits r
        some (c :: d.1, d.2)
      else none
  | [] => none

/-- A complete JSON number lexeme. -/
def jsonNum (cs : List Char) : Option (List Char × List Char) :=
  let sc : List Char × List Char :=
    match cs with
    | '-' :: r => (['-'], r)
    | _ => ([], cs)
  match jsonNumInt sc.2 with
  | none => none
  | some (ip, r1) =>
      match jsonNumFrac r1 with
      | none => none
      | some (fp, r2) =>
          match jsonNumExp r2 with
          | none => none
          | some (ep, r3) => some (sc.1 ++ ip ++ fp ++ ep, r3)

/-- Parsing task: a value, the tail of an array, or the tail of an object. -/
inductive JTask where
  | val
  | arrTail (acc : List Json)
  | objTail (acc : List (String × Json))

/-- The recursive-descent core of `JSON.parse`, fuel-driven so that it
reduces definitionally. -/
def jsonP : Nat → JTask → List Char → Option (Json × List Char)
  | 0, _, _ => none
  | fuel + 1, .val, cs =>
      match skipJsonWs cs with
      | [] => none
      | '{' :: rest =>
          match skipJsonWs rest with
          | '}' :: r2 => some (.obj [], r2)
          | _ => jsonP fuel (.objTail []) rest
      | '[' :: rest =>
          match skipJsonWs rest with
          | ']' :: r2 => some (.arr [], r2)
          | _ => jsonP fuel (.arrTail []) rest
      | '"' :: rest =>
          match jsonStrBody (rest.length + 1) [] rest with
          | some (s, r2) => some (.str s, r2)
          | none => none
      | 't' :: 'r' :: 'u' :: 'e' :: r => some (.bool true, r)
      | 'f' :: 'a' :: 'l' :: 's' :: 'e' :: r => some (.bool false, r)
      | 'n' :: 'u' :: 'l' :: 'l' :: r => some (.null, r)
      | cs2 =>
          match jsonNum cs2 with
          | some (lex, r) => some (.num (String.mk lex), r)
          | none => none
  | fuel + 1, .arrTail acc, cs =>
      match jsonP fuel .val cs with
      | none => none
      | some (j, r) =>
          match skipJsonWs r with
          | ',' :: r2 => jsonP fuel (.arrTail (acc ++ [j])) r2
          | ']' :: r2 => some (.arr (acc ++ [j]), r2)
          | _ => none
  | fuel + 1, .objTail acc, cs =>
      match skipJsonWs cs with
      | '"' :: rest =>
          match jsonStrBody (rest.length + 1) [] rest with
          | none => none
          | some (key, r) =>
              match skipJsonWs r with
              | ':' :: r2 =>
                  match jsonP fuel .val r2 with
                  | none => none
                  | some (v, r3) =>
                      match skipJsonWs r3 with
                      | ',' :: r4 => jsonP fuel (.objTail (acc ++ [(key, v)])) r4
                      | '}' :: r4 => some (.obj (acc ++ [(key, v)]), r4)
                      | _ => none
              | _ => none
      | _ => none

/-- `JSON.parse`, as a total function returning `none` where JS throws. -/
def parseJson (s : String) : Option Json :=
  let cs := s.toList
  match jsonP (3 * cs.length + 3) .val cs with
  | some (j, rest) => if (skipJsonWs rest).isEmpty then some j else none
  | none => none

/-- Object field lookup.  `JSON.parse` keeps the last duplicate key, hence
the reversed search. -/
def Json.getField (j : Json) (key : String) : Option Json :=
  match j with
  | .obj kvs => (kvs.reverse.find? (fun kv => kv.1 == key)).map (·.2)
  | _ => none

/-- Does a JSON number lexeme denote zero?  (The mantissa has no nonzero
digit; the exponent is irrelevant.) -/
def numDenotesZero (lex : String) : Bool :=
  (lex.toList.takeWhile (fun c => c != 'e' && c != 'E')).all
    (fun c => !('1' ≤ c ∧ c ≤ '9'))

/-- JS truthiness of a parsed JSON value. -/
def Json.truthy (j : Json) : Bool :=
  match j with
  | .null => false
  | .bool b => b
  | .num lex => !numDenotesZero lex
  | .str s => s != ""
  | .arr _ => true
  | .obj _ => true

/-- The string content of a JSON value, when it is a string. -/
def Json.asStr : Json → Option String
  | .str s => some s
  | _ => none

def hexDigitChar (n : Nat) : Char :=
  if n < 10 then Char.ofNat ('0'.toNat + n) else Char.ofNat ('a'.toNat + n - 10)

/-- `JSON.stringify` escaping of one character. -/
def jsonQuoteChar (c : Char) : List Char :=
  if c == '"' then ['\\', '"']
  else if c == '\\' then ['\\', '\\']
  else if c == '\x08' then ['\\', 'b']
  else if c == '\x0c' then ['\\', 'f']
  else if c == '\n' then ['\\', 'n']
  else if c == '\r' then ['\\', 'r']
  else if c == '\t' then ['\\', 't']
  else if c.toNat < 0x20 then
    ['\\', 'u', '0', '0', hexDigitChar (c.toNat / 16), hexDigitChar (c.toNat % 16)]
  else [c]

/-- `JSON.stringify` of a string value. -/
def jsonQuote (s : String) : String :=
  "\"" ++ String.mk (s.toList.map jsonQuoteChar).flatten ++ "\""

/-- `JSON.stringify({ raw: s })`. -/
def wrapRaw (s : String) : String :=
  "\x7b\"raw\":" ++ jsonQuote s ++ "\x7d"

/-! ## Tool-call extraction (src/freeseek/src/main/tool-call-parser.ts)

`parseToolCalls` matches the case-insensitive regexp

  `<tool_call\s+(?:id=['"]?([^'">\s]+)['"]?\s+)?name=['"]?([^'">\s]+)['"]?\s*(?:id=['"]?([^'">\s]+)['"]?\s*)?>([\s\S]*?)<\/tool_call>`

repeatedly (leftmost, non-overlapping), strips the matches from the text
(with a final trim when at least one matched) and wraps non-JSON argument
bodies as `{"raw": …}`.  The matcher below reproduces the regexp
backtracking: inside an attribute the token class `[^'">\s]+` makes the
greedy choices deterministic, so the only real alternatives are the two
optional id groups, which are tried with-then-without. -/

def openLit : List Char := "<tool_call".toList

def closeLit : List Char := "</tool_call".toList

def closeTagLit : List Char := "</tool_call>".toList

/-- A parsed tool call.  `idAttr = none` models the freshly generated
`call_<random>` id used when both id groups are absent; the claims compare
only names and arguments. -/
structure ToolCall where
  idAttr : Option String
  name : String
  arguments : String
deriving DecidableEq, Repr

def isAttrTokChar (c : Char) : Bool :=
  !(c == '\'' || c == '"' || c == '>' || isJsWhitespace c)

/-- Greedy `[^'">\s]+` run. -/
def takeAttrTok : List Char → List Char × List Char
  | [] => ([], [])
  | c :: rest =>
      if isAttrTokChar c then
        let r := takeAttrTok rest
        (c :: r.1, r.2)
      else ([], c :: rest)

/-- `['"]?` -/
def optQuote : List Char → List Char
  | [] => []
  | c :: rest => if c == '\'' || c == '"' then rest else c :: rest

/-- Greedy `\s*` (returns the run and the rest). -/
def takeJsWs : List Char → List Char × List Char
  | [] => ([], [])
  | c :: rest =>
      if isJsWhitespace c then
        let r := takeJsWs rest
        (c :: r.1, r.2)
      else ([], c :: rest)

/-- `id=['"]?([^'">\s]+)['"]?\s+` (the leading optional id group). -/
def parseIdWs (cs : List Char) : Option (String × List Char) :=
  if lcStartsWith cs "id=".toList then
    let cs1 := optQuote (cs.drop 3)
    let tk := takeAttrTok cs1
    if tk.1.isEmpty then none
    else
      let cs3 := optQuote tk.2
      let ws := takeJsWs cs3
      if ws.1.isEmpty then none else some (String.mk tk.1, ws.2)
  else none

/-- `id=['"]?([^'">\s]+)['"]?\s*` (the trailing optional id group). -/
def parseIdWsOpt (cs : List Char) : Option (String × List Char) :=
  if lcStartsWith cs "id=".toList then
    let cs1 := optQuote (cs.drop 3)
    let tk := takeAttrTok cs1
    if tk.1.isEmpty then none
    else some (String.mk tk.1, (takeJsWs (optQuote tk.2)).2)
  else none

/-- `name=['"]?([^'">\s]+)['"]?` -/
def parseNameAttr (cs : List Char) : Option (String × List Char) :=
  if lcStartsWith cs "name=".toList then
    let cs1 := optQuote (cs.drop 5)
    let tk := takeAttrTok cs1
    if tk.1.isEmpty then none
    else some (String.mk tk.1, optQuote tk.2)
  else none

/-- `\s*(?:id=…)?>` after the name attribute, with the group tried
with-then-without. -/
def parseAfterName (cs : List Char) : Option (Option String × List Char) :=
  let cs1 := (takeJsWs cs).2
  match parseIdWsOpt cs1 with
  | some (tok, cs2) =>
      match cs2 with
      | '>' :: rest => some (some tok, rest)
      | _ =>
          match cs1 with
          | '>' :: rest => some (none, rest)
          | _ => none
  | none =>
      match cs1 with
      | '>' :: rest => some (none, rest)
      | _ => none

structure TagMatch where
  grp1 : Option String
  name : String
  grp3 : Option String
  body : String
  rest : List Char
deriving DecidableEq, Repr

/-- Try the whole tag regexp anchored at the start of `cs`. -/
def matchToolCallAt (cs : List Char) : Option TagMatch :=
  if lcStartsWith cs openLit then
    let cs0 := cs.drop 10
    let ws := takeJsWs cs0
    if ws.1.isEmpty then none
    else
      let afterAttrs : Option (Option String × String × List Char) :=
        match parseIdWs ws.2 with
        | some (tok, cs2) =>
            match parseNameAttr cs2 with
            | some (nm, cs3) => some (some tok, nm, cs3)
            | none =>
                match parseNameAttr ws.2 with
                | some (nm, cs3) => some (none, nm, cs3)
                | none => none
        | none =>
            match parseNameAttr ws.2 with
            | some (nm, cs3) => some (none, nm, cs3)
            | none => none
      match afterAttrs with
      | none => none
      | some (g1, nm, cs3) =>
          match parseAfterName cs3 with
          | none => none
          | some (g3, cs4) =>
              match splitAtLcLit cs4 closeTagLit with
              | none => none
              | some (body, rest) => some ⟨g1, nm, g3, String.mk body, rest⟩
  else none

/-- Build the `ToolCall` from a match:
`(match[4] || "{}").trim()`, then JSON validation with `{"raw": …}`
fallback, and `match[1] || match[3]` for the id. -/
def mkToolCall (g1 g3 : Option String) (nm body : String) : ToolCall :=
  let rawBody := if body == "" then "\x7b\x7d" else body
  let argsStr := trimJs rawBody
  let valid := (parseJson argsStr).isSome
  { idAttr := g1 <|> g3,
    name := nm,
    arguments := if valid then argsStr else wrapRaw argsStr }

/-- The `exec` loop: leftmost non-overlapping matches, collecting the
non-matched characters (what `replace(tagRegex, "")` keeps). -/
def scanToolCalls : Nat → List Char → List Char → List ToolCall →
    List ToolCall × List Char
  | 0, cs, textAcc, calls => (calls, textAcc.reverse ++ cs)
  | fuel + 1, cs, textAcc, calls =>
      match cs with
      | [] => (calls, textAcc.reverse)
      | c :: rest =>
          match matchToolCallAt cs with
          | some m =>
              scanToolCalls fuel m.rest textAcc
                (calls ++ [mkToolCall m.grp1 m.grp3 m.name m.body])
          | none => scanToolCalls fuel rest (c :: textAcc) calls

structure ParsedCalls where
  toolCalls : List ToolCall
  textContent : String
deriving DecidableEq, Repr

/-- `parseToolCalls(text)`.  The text is trimmed only when at least one
tag matched. -/
def parseToolCalls (text : String) : ParsedCalls :=
  let cs := text.toList
  let r := scanToolCalls (cs.length + 1) cs [] []
  if r.1.isEmpty then ⟨[], text⟩
  else ⟨r.1, String.mk (trimJsList r.2)⟩

/-! ### Streaming tool-call state machine (`createStreamToolCallParser`)

The `depth` variable of the source is declared but never read and is
omitted.  `feed` is a character loop over `(tagBuffer, inTag)`; its
output per character is a pair (passed-through text, completed calls). -/

structure StreamSt where
  tagBuffer : List Char
  inTag : Bool
deriving DecidableEq, Repr

def initStreamSt : StreamSt := ⟨[], false⟩

/-- One character of `feed`. -/
def feedChar (st : StreamSt) (ch : Char) : StreamSt × List Char × List ToolCall :=
  if !st.inTag then
    if ch == '<' then (⟨['<'], true⟩, [], [])
    else (st, [ch], [])
  else
    let buf := st.tagBuffer ++ [ch]
    if buf.length ≤ 10 then
      if !lcIsPrefOfLit buf openLit && !lcIsPrefOfLit buf closeLit then
        (⟨[], false⟩, buf, [])
      else (⟨buf, true⟩, [], [])
    else if lcStartsWith buf closeLit then
      if ch == '>' then (⟨[], false⟩, buf, [])
      else (⟨buf, true⟩, [], [])
    else if lcStartsWith buf openLit then
      if lcContains buf closeTagLit then
        let parsed := parseToolCalls (String.mk buf)
        if parsed.toolCalls.isEmpty then (⟨[], false⟩, buf, [])
        else
          (⟨[], false⟩,
           (if parsed.textContent == "" then [] else parsed.textContent.toList),
           parsed.toolCalls)
      else (⟨buf, true⟩, [], [])
    else (⟨[], false⟩, buf, [])

/-- `feed(chunk)` over a char list. -/
def feedChars (st : StreamSt) : List Char → StreamSt × List Char × List ToolCall
  | [] => (st, [], [])
  | c :: rest =>
      let r1 := feedChar st c
      let r2 := feedChars r1.1 rest
      (r2.1, r1.2.1 ++ r2.2.1, r1.2.2 ++ r2.2.2)

/-- `flush()`. -/
def flushStream (st : StreamSt) : List Char × List ToolCall :=
  if st.tagBuffer.isEmpty then ([], [])
  else
    let parsed := parseToolCalls (String.mk st.tagBuffer)
    if parsed.toolCalls.isEmpty then (st.tagBuffer, [])
    else
      ((if parsed.textContent == "" then [] else parsed.textContent.toList),
       parsed.toolCalls)

/-- Feed a sequence of chunks. -/
def feedAll (st : StreamSt) : List (List Char) → StreamSt × List Char × List ToolCall
  | [] => (st, [], [])
  | chunk :: rest =>
      let r1 := feedChars st chunk
      let r2 := feedAll r1.1 rest
      (r2.1, r1.2.1 ++ r2.2.1, r1.2.2 ++ r2.2.2)

/-- Whole streaming run: fresh state, all chunks, then `flush()`;
returns (concatenated pendingText, completedCalls in order). -/
def runStream (chunks : List (List Char)) : List Char × List ToolCall :=
  let r := feedAll initStreamSt chunks
  let fl := flushStream r.1
  (r.2.1 ++ fl.1, r.2.2 ++ fl.2)

/-- The C1 counterexample text:
a stray `</tool_call ` head swallows the following well-formed tag in the
streaming parser, while the whole-text regexp matches it. -/
def c1Text : String := "</tool_call <tool_call name=\"a\">\x7b\x7d</tool_call>"

/-! ## Stream converters (src/freeseek/src/main/stream-converter.ts and the
Claude-family converter)

Upstream bytes are fed to a `Transform` that buffers a trailing partial
line (`buffer += chunk; lines = buffer.split("\n"); buffer = lines.pop()`),
processes each complete line, and on `flush` appends a synthetic
finish-reason "stop" chunk and the `[DONE]` sentinel.  Output chunks are
modelled abstractly: a reasoning_content delta, a content delta, the stop
chunk, or the `data: [DONE]` sentinel.  The `console.log` of the first
content chunk (and its `firstContentLogged` flag) is pure logging and is
omitted. -/

inductive OutChunk where
  | reasoningDelta (s : String)
  | contentDelta (s : String)
  | stopChunk
  | doneMark
deriving DecidableEq, Repr

/-- `<｜end▁of▁thinking｜>` — the in-band end-of-thinking marker. -/
def endThinkMarker : List Char := "<｜end▁of▁thinking｜>".toList

/-- The SPECIAL_TOKENS set. -/
def specialTokens : List String :=
  ["<｜end▁of▁thinking｜>", "<|endoftext|>", "<|im_end|>",
   "<|im_start|>", "FINISHED", "\nFINISHED"]

def dropLit (cs lit : List Char) : Option (List Char) :=
  if litAt cs lit then some (cs.drop lit.length) else none

def matchDigits1 (cs : List Char) : Option (List Char) :=
  let d := takeDigits cs
  if d.1.isEmpty then none else some d.2

/-- `\[citation:\d+\]` anchored at the head. -/
def matchCitation (cs : List Char) : Option (List Char) :=
  (dropLit cs "[citation:".toList).bind fun r =>
    (matchDigits1 r).bind fun r2 => dropLit r2 [']']

/-- `\[ref_\d+\]` anchored at the head. -/
def matchSearchRef (cs : List Char) : Option (List Char) :=
  (dropLit cs "[ref_".toList).bind fun r =>
    (matchDigits1 r).bind fun r2 => dropLit r2 [']']

/-- `\[search_begin\]|\[search_end\]` anchored at the head. -/
def matchSearchMarker (cs : List Char) : Option (List Char) :=
  match dropLit cs "[search_begin]".toList with
  | some r => some r
  | none => dropLit cs "[search_end]".toList

/-- `text.replace(re, "")` for an anchored matcher: left-to-right scan
removing non-overlapping matches. -/
def removeAll (m : List Char → Option (List Char)) : Nat → List Char → List Char
  | 0, cs => cs
  | fuel + 1, cs =>
      match cs with
      | [] => []
      | c :: rest =>
          match m cs with
          | some r => removeAll m fuel r
          | none => c :: removeAll m fuel rest

/-- The zero-width characters stripped by UNICODE_SPECIAL_RE. -/
def isZeroWidth (c : Char) : Bool :=
  c.toNat == 0x200b || c.toNat == 0x200c || c.toNat == 0x200d ||
  c.toNat == 0xfeff

/-- `sanitize(text, isReasoning)`: `null` for empty text and for special
tokens; citation/search-artifact regexes on content-phase text only; the
universal zero-width strip; `null` when nothing remains. -/
def sanitize (text : String) (isReasoning : Bool) : Option String :=
  if text == "" then none
  else if specialTokens.contains (trimJs text) then none
  else
    let cs := text.toList
    let cs :=
      if !isReasoning then
        let c1 := removeAll matchCitation (cs.length + 1) cs
        let c2 := removeAll matchSearchRef (c1.length + 1) c1
        removeAll matchSearchMarker (c2.length + 1) c2
      else cs
    let cleaned := cs.filter (fun c => !isZeroWidth c)
    if cleaned.isEmpty then none else some (String.mk cleaned)

/-- `data.choices?.[0]?.delta` -/
def delta0 (data : Json) : Option Json :=
  (data.getField "choices").bind fun c =>
    match c with
    | .arr (x :: _) => x.getField "delta"
    | _ => none

inductive ThinkVerdict where
  | yes
  | no
  | unknown
deriving DecidableEq, Repr

/-- Strategy 3 of `isThinkingChunk`: an already-normalized OpenAI shape. -/
def thinkStrategy3 (data : Json) : ThinkVerdict :=
  match delta0 data with
  | some d =>
      let rcTruthy :=
        match d.getField "reasoning_content" with
        | some rc => rc.truthy
        | none => false
      if rcTruthy then .yes
      else
        match d.getField "content" with
        | some _ => .no
        | none => .unknown
  | none => .unknown

/-- Strategy 2 of `isThinkingChunk`: the `type` discriminator. -/
def thinkStrategy2 (data : Json) : ThinkVerdict :=
  match data.getField "type" with
  | some (.str "thinking") => .yes
  | some (.str "reasoning") => .yes
  | some (.str "text") => .no
  | some (.str "content") => .no
  | _ => thinkStrategy3 data

/-- `isThinkingChunk(data)`: `p`-path keywords, then the `type` field,
then the normalized shape; `unknown` models the `null` return. -/
def isThinkingChunk (data : Json) : ThinkVerdict :=
  match data.getField "p" with
  | some (.str p) =>
      if p == "" then thinkStrategy2 data
      else if lcContains p.toList "thinking".toList ||
          lcContains p.toList "reasoning".toList ||
          lcContains p.toList "think_content".toList ||
          lcContains p.toList "thought".toList then .yes
      else .no
  | _ => thinkStrategy2 data

/-- `extractContent(data)`: the `v` field, the `content` field (both by
`typeof` check, so empty strings pass), then truthy
`delta.reasoning_content` / `delta.content`.  A truthy non-string value in
the delta fields would make the subsequent `.includes` call throw inside
the per-line try/catch — i.e. the line is skipped — which `none` models. -/
def extractContent (data : Json) : Option String :=
  match data.getField "v" with
  | some (.str v) => some v
  | _ =>
    match data.getField "content" with
    | some (.str c) => some c
    | _ =>
      match delta0 data with
      | some d =>
          let rc := d.getField "reasoning_content"
          let rcTruthy := match rc with | some x => x.truthy | none => false
          if rcTruthy then rc.bind Json.asStr
          else
            let co := d.getField "content"
            let coTruthy := match co with | some x => x.truthy | none => false
            if coTruthy then co.bind Json.asStr else none
      | none => none

structure DSOpts where
  stripReasoning : Bool
  /-- Carried by the options object but never read by the converter. -/
  cleanMode : Bool
deriving DecidableEq, Repr

/-- The per-request state machine of `createStreamConverter`. -/
structure DSState where
  thinkingPhase : Bool
  thinkingEnded : Bool
  hasAnyContent : Bool
  parentMessageId : Option Json

/-- `model.includes("reasoner")` seeds thinkingPhase. -/
def modelIsReasoner (model : String) : Bool :=
  (splitAtLitCS model.toList "reasoner".toList).isSome

def dsInit (model : String) : DSState :=
  { thinkingPhase := modelIsReasoner model, thinkingEnded := false,
    hasAnyContent := false, parentMessageId := none }

/-- Processing of one successfully JSON-parsed DeepSeek SSE frame. -/
def dsFrame (opts : DSOpts) (st : DSState) (data : Json) :
    DSState × List OutChunk :=
  let st :=
    match data.getField "response_message_id" with
    | some v => if v.truthy then { st with parentMessageId := some v } else st
    | none => st
  match extractContent data with
  | none => (st, [])
  | some raw =>
      if (splitAtLitCS raw.toList endThinkMarker).isSome then
        let st := { st with thinkingPhase := false, thinkingEnded := true }
        let afterM := afterLastOcc (raw.toList.length + 1) raw.toList endThinkMarker
        if (trimJsList afterM).isEmpty then (st, [])
        else
          match sanitize (String.mk afterM) false with
          | some cleaned => ({ st with hasAnyContent := true }, [.contentDelta cleaned])
          | none => (st, [])
      else
        let pr : Bool × DSState :=
          match isThinkingChunk data with
          | .yes => (true, st)
          | .no =>
              (false,
               if st.thinkingPhase then
                 { st with thinkingPhase := false, thinkingEnded := true }
               else st)
          | .unknown => (st.thinkingPhase && !st.thinkingEnded, st)
        match sanitize raw pr.1 with
        | none => (pr.2, [])
        | some content =>
            if opts.stripReasoning && pr.1 then (pr.2, [])
            else
              let st2 := if !pr.1 then { pr.2 with hasAnyContent := true } else pr.2
              (st2, [if pr.1 then .reasoningDelta content else .contentDelta content])

/-- Extract the `data:` payload of a line (both `"data: x"` and
`"data:x"`). -/
def dsDataStr (trimmed : List Char) : Option (List Char) :=
  if litAt trimmed "data: ".toList then some (trimJsList (trimmed.drop 6))
  else if litAt trimmed "data:".toList then some (trimJsList (trimmed.drop 5))
  else none

/-- One complete line of the DeepSeek converter. -/
def dsLine (opts : DSOpts) (st : DSState) (line : List Char) :
    DSState × List OutChunk :=
  let trimmed := trimJsList line
  if trimmed.isEmpty || litAt trimmed "event:".toList then (st, [])
  else
    match dsDataStr trimmed with
    | none => (st, [])
    | some ds =>
        if ds == "[DONE]".toList then (st, [.doneMark])
        else
          match parseJson (String.mk ds) with
          | none => (st, [])
          | some data => dsFrame opts st data

/-- `extractClaudeText(data, event)`. -/
def extractClaudeText (data : Json) (event : String) : Option String :=
  let tryTruthyStr (o : Option Json) : Option String :=
    match o with
    | some (.str s) => if s == "" then none else some s
    | _ => none
  match (if event == "content_block_delta" then
      tryTruthyStr ((data.getField "delta").bind (·.getField "text"))
    else none) with
  | some t => some t
  | none =>
    match (if event == "completion" then
        (match data.getField "completion" with
         | some (.str s) => some s
         | _ => none)
      else none) with
    | some t => some t
    | none =>
        if event == "content_block_start" then
          tryTruthyStr ((data.getField "content_block").bind (·.getField "text"))
        else none

/-- One complete line of the Claude converter; the state is
`currentEvent`. -/
def claudeLine (st : String) (line : List Char) : String × List OutChunk :=
  let trimmed := trimJsList line
  if litAt trimmed "event:".toList then
    (String.mk (trimJsList (trimmed.drop 6)), [])
  else if !litAt trimmed "data:".toList then (st, [])
  else
    let ds := if litAt trimmed "data: ".toList then trimJsList (trimmed.drop 6)
              else trimJsList (trimmed.drop 5)
    if ds.isEmpty || ds == "[DONE]".toList then (st, [.doneMark])
    else
      match parseJson (String.mk ds) with
      | none => (st, [])
      | some data =>
          let outs : List OutChunk :=
            match extractClaudeText data st with
            | some t => if t == "" then [] else [.contentDelta t]
            | none => []
          let stopReasonTruthy :=
            match (data.getField "delta").bind (·.getField "stop_reason") with
            | some sr => sr.truthy
            | none => false
          if st == "message_stop" || (st == "message_delta" && stopReasonTruthy)
          then (st, outs ++ [.stopChunk, .doneMark])
          else (st, outs)

/-! ### Line assembly from byte chunks (shared by both converters) -/

/-- JS `s.split("\n")` on char lists (always at least one part). -/
def splitNl : List Char → List (List Char)
  | [] => [[]]
  | c :: rest =>
      if c == '\n' then [] :: splitNl rest
      else
        match splitNl rest with
        | [] => [[c]]
        | l :: ls => (c :: l) :: ls

/-- Process a list of complete lines with a per-line step. -/
def linesOut {σ : Type} (f : σ → List Char → σ × List OutChunk) :
    σ → List (List Char) → σ × List OutChunk
  | st, [] => (st, [])
  | st, l :: rest =>
      let s1 := f st l
      let s2 := linesOut f s1.1 rest
      (s2.1, s1.2 ++ s2.2)

structure ChunkFeed (σ : Type) where
  buffer : List Char
  state : σ
  out : List OutChunk

/-- One `transform(chunk)` call: split the carried buffer plus the chunk
on newlines, process all complete lines, keep the trailing partial line. -/
def feedChunkG {σ : Type} (f : σ → List Char → σ × List OutChunk)
    (r : ChunkFeed σ) (chunk : List Char) : ChunkFeed σ :=
  let parts := splitNl (r.buffer ++ chunk)
  let res := linesOut f r.state parts.dropLast
  { buffer := parts.getLastD [], state := res.1, out := r.out ++ res.2 }

def feedAllG {σ : Type} (f : σ → List Char → σ × List OutChunk) :
    ChunkFeed σ → List (List Char) → ChunkFeed σ
  | r, [] => r
  | r, c :: rest => feedAllG f (feedChunkG f r c) rest

/-- Character-level reformulation used to prove chunking-invariance. -/
def charStepG {σ : Type} (f : σ → List Char → σ × List OutChunk)
    (r : ChunkFeed σ) (c : Char) : ChunkFeed σ :=
  if c == '\n' then
    let s := f r.state r.buffer
    { buffer := [], state := s.1, out := r.out ++ s.2 }
  else { r with buffer := r.buffer ++ [c] }

def charFeedG {σ : Type} (f : σ → List Char → σ × List OutChunk) :
    ChunkFeed σ → List Char → ChunkFeed σ
  | r, [] => r
  | r, c :: rest => charFeedG f (charStepG f r c) rest

/-- Whole DeepSeek conversion of a chunked upstream byte stream, including
the flush handler's unconditional stop chunk and `[DONE]` sentinel. -/
def dsConvert (model : String) (opts : DSOpts) (chunks : List (List Char)) :
    List OutChunk :=
  (feedAllG (dsLine opts) ⟨[], dsInit model, []⟩ chunks).out ++
    [.stopChunk, .doneMark]

/-- DeepSeek conversion expressed over the stream's complete lines. -/
def dsConvertLines (model : String) (opts : DSOpts)
    (lines : List (List Char)) : List OutChunk :=
  (linesOut (dsLine opts) (dsInit model) lines).2 ++ [.stopChunk, .doneMark]

/-- Whole Claude conversion of a chunked upstream byte stream. -/
def claudeConvert (chunks : List (List Char)) : List OutChunk :=
  (feedAllG claudeLine ⟨[], "", []⟩ chunks).out ++ [.stopChunk, .doneMark]

/-- Claude conversion expressed over the stream's complete lines. -/
def claudeConvertLines (lines : List (List Char)) : List OutChunk :=
  (linesOut claudeLine "" lines).2 ++ [.stopChunk, .doneMark]

def countDone (out : List OutChunk) : Nat :=
  out.countP (fun c => c == .doneMark)

def countStop (out : List OutChunk) : Nat :=
  out.countP (fun c => c == .stopChunk)

/-- The C2 counterexample upstream: two thinking-phase frames, the second
embedding the end-of-thinking marker mid-fragment. -/
def c2Input : String :=
  "data: \x7b\"v\":\"think1\"\x7d\ndata: \x7b\"v\":\"tail<｜end▁of▁thinking｜>Answer\"\x7d\n"

/-! ## Provider adapters' chat() orchestration
(src/freeseek/src/main/providers/deepseek.ts, qwen.ts, and the Claude
provider)

The upstream network is abstracted as an `Oracle` giving the outcome of
the n-th `createSession`/`createConversation` call and of the n-th
upstream `chat` call of one `chat()` invocation.  The result records the
outcome (ok k = the k-th upstream chat call produced the returned
stream), the pool/store/session-cache after the call, and the ordered
trace of session and pool operations.  The DeepSeek and Claude adapters
share their control flow verbatim, differing only in the auth-error
signature and the no-credentials message; `sessionChat` is that shared
flow, instantiated twice below. -/

inductive ChatEvent where
  | evCreateSession
  | evSessionSet (sid : String)
  | evSessionDelete
  | evChat (credId : String)
  | evMarkSuccess (credId : String)
  | evMarkFailed (credId : String) (err : String)
deriving DecidableEq, Repr

deriving instance DecidableEq for Except

structure Oracle where
  createSession : Nat → Except String String
  chatCall : Nat → Except String Unit

structure AdapterResult where
  outcome : Except String Nat
  pool : Pool
  store : Store
  cache : Option String
  events : List ChatEvent
deriving DecidableEq

/-- JS `message?.includes(sub)`. -/
def strIncludes (s sub : String) : Bool :=
  (splitAtLitCS s.toList sub.toList).isSome

/-- deepseek.ts: `chatErr.message?.includes("40") ||
chatErr.message?.includes("session")`. -/
def dsIsAuthErr (msg : String) : Bool :=
  strIncludes msg "40" || strIncludes msg "session"

/-- Claude provider: 403 / 401 / 410 / the textual auth marker. -/
def claudeIsAuthErr (msg : String) : Bool :=
  strIncludes msg "403" || strIncludes msg "401" || strIncludes msg "410" ||
  strIncludes msg "认证"

/-- qwen.ts: `chatErr.message?.includes("401") ||
chatErr.message?.includes("403")`. -/
def qwenIsAuthErr (msg : String) : Bool :=
  strIncludes msg "401" || strIncludes msg "403"

def dsNoCredMsg : String := "未找到 DeepSeek 凭证，请先捕获登录凭证"

def claudeNoCredMsg : String := "未找到 Claude 凭证，请先捕获 Claude 登录凭证"

def qwenNoCredMsg : String := "未找到通义千问凭证，请先捕获登录凭证"

/-- The credential-failover tail shared by the DeepSeek/Claude `chat()`:
mark the credential failed, take `pool.next()` once, and only when it
yields a *different* entry run create-session-and-chat once on it;
otherwise rethrow the retry error.  (The fallback `createSession`/`chat`
are outside any try, so their failures propagate.) -/
def sessionFallback (pool1 : Pool) (st1 : Store) (cache : Option String)
    (oracle : Oracle) (now : String) (r2 : Nat) (entry : CredEntry)
    (retryErr : String) (csIdx chatIdx : Nat) (evs : List ChatEvent) :
    AdapterResult :=
  let mf := pool1.markFailed st1 entry.id retryErr
  let evs := evs ++ [.evMarkFailed entry.id retryErr]
  let n2 := mf.1.next now r2
  match n2.1 with
  | some fb =>
      if fb.id != entry.id then
        match oracle.createSession csIdx with
        | .error e3 => ⟨.error e3, n2.2, mf.2, cache, evs ++ [.evCreateSession]⟩
        | .ok _ =>
            let evs := evs ++ [.evCreateSession]
            match oracle.chatCall chatIdx with
            | .ok _ =>
                let ms := n2.2.markSuccess mf.2 fb.id
                ⟨.ok chatIdx, ms.1, ms.2, cache,
                 evs ++ [.evChat fb.id, .evMarkSuccess fb.id]⟩
            | .error e3 => ⟨.error e3, n2.2, mf.2, cache, evs ++ [.evChat fb.id]⟩
      else ⟨.error retryErr, n2.2, mf.2, cache, evs⟩
  | none => ⟨.error retryErr, n2.2, mf.2, cache, evs⟩

/-- The body after a session id has been resolved: first upstream chat;
on success mark the credential; on an auth-class error delete the cached
session, create exactly one fresh session and retry once on the same
credential inside a try whose catch runs the failover tail; on a
non-auth error mark failed and rethrow. -/
def sessionChatBody (isAuthErr : String → Bool) (pool1 : Pool) (st1 : Store)
    (cache1 : Option String) (oracle : Oracle) (now : String) (r2 : Nat)
    (entry : CredEntry) (csIdx : Nat) (evs : List ChatEvent) : AdapterResult :=
  let evs := evs ++ [.evChat entry.id]
  match oracle.chatCall 0 with
  | .ok _ =>
      let ms := pool1.markSuccess st1 entry.id
      ⟨.ok 0, ms.1, ms.2, cache1, evs ++ [.evMarkSuccess entry.id]⟩
  | .error chatErr =>
      if isAuthErr chatErr then
        let evs := evs ++ [.evSessionDelete]
        match oracle.createSession csIdx with
        | .error e2 =>
            sessionFallback pool1 st1 none oracle now r2 entry e2
              (csIdx + 1) 1 (evs ++ [.evCreateSession])
        | .ok sid2 =>
            let evs := evs ++ [.evCreateSession, .evSessionSet sid2,
                               .evChat entry.id]
            match oracle.chatCall 1 with
            | .ok _ =>
                let ms := pool1.markSuccess st1 entry.id
                ⟨.ok 1, ms.1, ms.2, some sid2, evs ++ [.evMarkSuccess entry.id]⟩
            | .error e2 =>
                sessionFallback pool1 st1 (some sid2) oracle now r2 entry e2
                  (csIdx + 1) 2 evs
      else
        let mf := pool1.markFailed st1 entry.id chatErr
        ⟨.error chatErr, mf.1, mf.2, cache1,
         evs ++ [.evMarkFailed entry.id chatErr]⟩

/-- The common DeepSeek/Claude `chat()`: take a credential from the pool,
resolve the cached session (creating one when the cache for the session
key is empty — a failure there propagates untouched), then run the body. -/
def sessionChat (isAuthErr : String → Bool) (noCredMsg : String)
    (pool : Pool) (st : Store) (cache : Option String) (oracle : Oracle)
    (now : String) (r1 r2 : Nat) : AdapterResult :=
  let n1 := pool.next now r1
  match n1.1 with
  | none => ⟨.error noCredMsg, n1.2, st, cache, []⟩
  | some entry =>
      match cache with
      | some _ => sessionChatBody isAuthErr n1.2 st cache oracle now r2 entry 0 []
      | none =>
          match oracle.createSession 0 with
          | .error e => ⟨.error e, n1.2, st, cache, [.evCreateSession]⟩
          | .ok sid =>
              sessionChatBody isAuthErr n1.2 st (some sid) oracle now r2 entry 1
                [.evCreateSession, .evSessionSet sid]

def dsChat : Pool → Store → Option String → Oracle → String → Nat → Nat →
    AdapterResult :=
  sessionChat dsIsAuthErr dsNoCredMsg

def claudeChat : Pool → Store → Option String → Oracle → String → Nat → Nat →
    AdapterResult :=
  sessionChat claudeIsAuthErr claudeNoCredMsg

/-- qwen.ts `chat()`: no session cache, no conversation reuse — a fresh
chatId per request; on a 401/403 the credential is marked failed
immediately and at most one distinct-credential fallback chat is
attempted; otherwise mark failed and rethrow. -/
def qwenChat (pool : Pool) (st : Store) (oracle : Oracle) (now : String)
    (r1 r2 : Nat) : AdapterResult :=
  let n1 := pool.next now r1
  match n1.1 with
  | none => ⟨.error qwenNoCredMsg, n1.2, st, none, []⟩
  | some entry =>
      let evs := [ChatEvent.evChat entry.id]
      match oracle.chatCall 0 with
      | .ok _ =>
          let ms := n1.2.markSuccess st entry.id
          ⟨.ok 0, ms.1, ms.2, none, evs ++ [.evMarkSuccess entry.id]⟩
      | .error e =>
          if qwenIsAuthErr e then
            let mf := n1.2.markFailed st entry.id e
            let evs := evs ++ [.evMarkFailed entry.id e]
            let n2 := mf.1.next now r2
            match n2.1 with
            | some fb =>
                if fb.id != entry.id then
                  match oracle.chatCall 1 with
                  | .ok _ =>
                      let ms := n2.2.markSuccess mf.2 fb.id
                      ⟨.ok 1, ms.1, ms.2, none,
                       evs ++ [.evChat fb.id, .evMarkSuccess fb.id]⟩
                  | .error e2 =>
                      ⟨.error e2, n2.2, mf.2, none, evs ++ [.evChat fb.id]⟩
                else ⟨.error e, n2.2, mf.2, none, evs⟩
            | none => ⟨.error e, n2.2, mf.2, none, evs⟩
          else
            let mf := n1.2.markFailed st entry.id e
            ⟨.error e, mf.1, mf.2, none, evs ++ [.evMarkFailed entry.id e]⟩

def countCreateSessionEv (evs : List ChatEvent) : Nat :=
  evs.countP (fun e => e == .evCreateSession)

def hasSessionDelete (evs : List ChatEvent) : Bool :=
  evs.any (fun e => e == .evSessionDelete)

def chatCredsOf (evs : List ChatEvent) : List String :=
  evs.filterMap (fun e =>
    match e with
    | .evChat c => some c
    | _ => none)

/-- The entry `pool.next()` yields for the failover attempt, after the
first credential has been marked failed. -/
def fallbackNext (pool : Pool) (st : Store) (now : String) (r1 r2 : Nat)
    (enId err : String) : Option CredEntry :=
  (((pool.next now r1).2.markFailed st enId err).1.next now r2).1

/-- Oracle for the C3 counterexample and witness: the first upstream chat
fails with an auth-class message, everything else succeeds. -/
def oracle401 : Oracle :=
  { createSession := fun _ => .ok "s1",
    chatCall := fun n => if n == 0 then .error "e401" else .ok () }

/-- A two-credential pool (both active, ids "a" and "b"). -/
def poolAB : Pool := { entries := [witEntry, witEntryB], currentIndex := 0,
                       strategy := .roundRobin }

/-! ## Theorems: credential pool -/

theorem findById_cons (id : String) (a : CredEntry) (rest : List CredEntry) :
    findById id (a :: rest) = if a.id == id then some a else findById id rest := by
  by_cases h : a.id == id <;> simp [findById, List.find?, h]

theorem findById_updateFirstWithId (id : String) (f : CredEntry → CredEntry)
    (hf : ∀ e, (f e).id = e.id) (es : List CredEntry) (e : CredEntry)
    (h : findById id es = some e) :
    findById id (updateFirstWithId id f es) = some (f e) := by
  induction es with
  | nil => simp [findById] at h
  | cons a rest ih =>
      by_cases ha : a.id == id
      · rw [findById_cons, if_pos ha] at h
        cases h
        simp [updateFirstWithId, ha, findById_cons, hf]
      · rw [findById_cons, if_neg ha] at h
        simp [updateFirstWithId, ha, findById_cons, ih h]

theorem findById_markFailed (p : Pool) (st : Store) (id err : String)
    (e : CredEntry) (h : findById id p.entries = some e) :
    findById id (p.markFailed st id err).1.entries = some (mfStep err e) := by
  unfold Pool.markFailed
  rw [h]
  simpa using findById_updateFirstWithId id (mfStep err) (fun _ => rfl) p.entries e h

theorem findById_iterMarkFailed (n : Nat) (p : Pool) (st : Store) (id err : String)
    (e : CredEntry) (h : findById id p.entries = some e) :
    findById id (iterMarkFailed n p st id err).1.entries =
      some ((mfStep err)^[n] e) := by
  induction n generalizing p st e with
  | zero => simpa using h
  | succ n ih =>
      have hstep := findById_markFailed p st id err e h
      have := ih (p.markFailed st id err).1 (p.markFailed st id err).2
        (mfStep err e) hstep
      rw [Function.iterate_succ_apply]
      simpa [iterMarkFailed] using this

/-- C5: in every pool state, `activeCount() ≤ count()`, and `next()` returns
null exactly when the active count is zero — under either strategy and any
random draw. -/
theorem pool_activeCount_le_and_next_none_iff (p : Pool) (now : String) (r : Nat) :
    p.activeCount ≤ p.count ∧ ((p.next now r).1 = none ↔ p.activeCount = 0) := by
  refine ⟨List.length_filter_le _ _, ?_⟩
  unfold Pool.next Pool.activeCount
  by_cases h : (p.entries.filter isActive).length = 0 <;> simp [h]

/-- C7: five consecutive `markFailed` calls on a fresh entry demote it to
Failed, and a sixth call leaves the status Failed (unchanged). -/
theorem markFailed_five_then_sixth_noop (p : Pool) (st : Store) (id err : String)
    (e : CredEntry) (hfind : findById id p.entries = some e)
    (hfc : e.failCount = 0) :
    (findById id (iterMarkFailed 5 p st id err).1.entries).map CredEntry.status
        = some .failed ∧
    (findById id (iterMarkFailed 6 p st id err).1.entries).map CredEntry.status
        = some .failed := by
  obtain ⟨i, c, s, fc, lu, le, aa⟩ := e
  simp only at hfc
  subst hfc
  rw [findById_iterMarkFailed 5 p st id err _ hfind,
      findById_iterMarkFailed 6 p st id err _ hfind]
  simp [Function.iterate_succ_apply, mfStep]

theorem markFailed_five_then_sixth_noop_witness :
    (findById "a" (Pool.mk [witEntry] 0 .roundRobin).entries = some witEntry ∧
      witEntry.failCount = 0) ∧
    ((findById "a" (iterMarkFailed 5 (Pool.mk [witEntry] 0 .roundRobin) none "a" "boom").1.entries).map
        CredEntry.status = some .failed ∧
     (findById "a" (iterMarkFailed 6 (Pool.mk [witEntry] 0 .roundRobin) none "a" "boom").1.entries).map
        CredEntry.status = some .failed) :=
  ⟨⟨rfl, rfl⟩,
   markFailed_five_then_sixth_noop (Pool.mk [witEntry] 0 .roundRobin) none "a" "boom"
     witEntry rfl rfl⟩

/-- C8: loading a legacy single-object credential file yields a one-element
pool of one Active entry wrapping that object and rewrites the file in array
form; re-loading the rewritten file changes neither the pool nor the file. -/
theorem load_legacy_migration_idempotent (p : Pool) (c : Creds)
    (id1 now1 id2 now2 : String) :
    (p.load (some (.legacy c)) id1 now1).1.entries = [wrapEntry c id1 now1] ∧
    (wrapEntry c id1 now1).status = .active ∧
    (wrapEntry c id1 now1).credentials = c ∧
    (p.load (some (.legacy c)) id1 now1).2
        = some (.arrayForm [wrapEntry c id1 now1]) ∧
    ((p.load (some (.legacy c)) id1 now1).1.load
        (p.load (some (.legacy c)) id1 now1).2 id2 now2)
      = p.load (some (.legacy c)) id1 now1 := by
  simp [Pool.load, wrapEntry, save]

theorem length_modifyIdx (f : α → α) (k : Nat) (l : List α) :
    (modifyIdx f k l).length = l.length := by
  induction l generalizing k with
  | nil => cases k <;> rfl
  | cons a rest ih =>
      cases k with
      | zero => simp [modifyIdx]
      | succ k => simp [modifyIdx, ih]

theorem getD_modifyIdx_ne (f : α → α) (k j : Nat) (l : List α) (d : α)
    (h : j ≠ k) : (modifyIdx f k l).getD j d = l.getD j d := by
  induction l generalizing k j with
  | nil => cases k <;> rfl
  | cons a rest ih =>
      cases k with
      | zero =>
          cases j with
          | zero => exact absurd rfl h
          | succ j => simp [modifyIdx]
      | succ k =>
          cases j with
          | zero => simp [modifyIdx]
          | succ j => simpa [modifyIdx] using ih k j (by omega)

theorem getD_modifyIdx_self (f : α → α) (k : Nat) (l : List α) (d : α)
    (h : k < l.length) : (modifyIdx f k l).getD k d = f (l.getD k d) := by
  induction l generalizing k with
  | nil => simp at h
  | cons a rest ih =>
      cases k with
      | zero => simp [modifyIdx]
      | succ k => simpa [modifyIdx] using ih k (by simpa using h)

theorem stampEntry_idem (now : String) (e : CredEntry) :
    stampEntry now (stampEntry now e) = stampEntry now e := rfl

theorem isActive_stampEntry (now : String) (e : CredEntry) :
    isActive (stampEntry now e) = isActive e := rfl

theorem filter_stampNthActive (now : String) (es : List CredEntry) (k : Nat) :
    (stampNthActive now es k).filter isActive =
      modifyIdx (stampEntry now) k (es.filter isActive) := by
  induction es generalizing k with
  | nil => cases k <;> rfl
  | cons e rest ih =>
      by_cases he : isActive e
      · cases k with
        | zero =>
            have hes : isActive (stampEntry now e) = true := by
              rw [isActive_stampEntry]; exact he
            simp [stampNthActive, he, hes, modifyIdx, List.filter_cons]
        | succ k => simp [stampNthActive, he, modifyIdx, ih]
      · simp [stampNthActive, he, ih]

theorem next_roundRobin (p : Pool) (now : String)
    (hstrat : p.strategy = .roundRobin)
    (hne : (p.entries.filter isActive).length ≠ 0) :
    p.next now 0 =
      (some (stampEntry now ((p.entries.filter isActive).getD
          (p.currentIndex % (p.entries.filter isActive).length) default)),
       { entries := stampNthActive now p.entries
            (p.currentIndex % (p.entries.filter isActive).length),
         currentIndex := (p.currentIndex % (p.entries.filter isActive).length + 1)
             % (p.entries.filter isActive).length,
         strategy := p.strategy }) := by
  simp [Pool.next, hstrat, hne]

theorem nextSeq_roundRobin_aux (now : String) (al : List CredEntry) (N : Nat)
    (hpos : 0 < N) :
    ∀ (m : Nat) (q : Pool) (k : Nat),
      q.strategy = .roundRobin →
      q.activeList.length = N →
      q.currentIndex % N = k →
      (∀ j, stampEntry now (q.activeList.getD j default)
          = stampEntry now (al.getD j default)) →
      (q.nextSeq now m).1 =
        (List.range m).map
          (fun j => some (stampEntry now (al.getD ((k + j) % N) default))) := by
  intro m
  induction m with
  | zero => intro q k _ _ _ _; simp [Pool.nextSeq]
  | succ m ih =>
      intro q k hstrat hlen hk hstamp
      have hlenf : (q.entries.filter isActive).length = N := hlen
      have hne : (q.entries.filter isActive).length ≠ 0 := by omega
      have hkN : k < N := by
        rw [← hk]; exact Nat.mod_lt _ hpos
      have hstep := next_roundRobin q now hstrat hne
      rw [hlenf, hk] at hstep
      set q' : Pool :=
        { entries := stampNthActive now q.entries k,
          currentIndex := (k + 1) % N,
          strategy := q.strategy } with hq'
      have hstrat' : q'.strategy = .roundRobin := by rw [hq']; exact hstrat
      have hact' : q'.activeList = modifyIdx (stampEntry now) k q.activeList := by
        simp only [hq', Pool.activeList]
        exact filter_stampNthActive now q.entries k
      have hlen' : q'.activeList.length = N := by
        rw [hact', length_modifyIdx]; exact hlen
      have hcur' : q'.currentIndex % N = (k + 1) % N := by
        show (k + 1) % N % N = (k + 1) % N
        exact Nat.mod_mod_of_dvd _ dvd_rfl
      have hstamp' : ∀ j, stampEntry now (q'.activeList.getD j default)
          = stampEntry now (al.getD j default) := by
        intro j
        rw [hact']
        by_cases hj : j = k
        · subst hj
          have hjlen : j < q.activeList.length := by omega
          rw [getD_modifyIdx_self _ _ _ _ hjlen, stampEntry_idem]
          exact hstamp j
        · rw [getD_modifyIdx_ne _ _ _ _ _ hj]
          exact hstamp j
      have htail := ih q' ((k + 1) % N) hstrat' hlen' hcur' hstamp'
      have hhead : stampEntry now ((q.entries.filter isActive).getD k default)
          = stampEntry now (al.getD k default) := hstamp k
      simp only [Pool.nextSeq, hstep]
      rw [htail, List.range_succ_eq_map, List.map_cons, List.map_map]
      have hk0 : (k + 0) % N = k := by
        rw [Nat.add_zero]; exact Nat.mod_eq_of_lt hkN
      rw [hk0, hhead]
      congr 1
      apply List.map_congr_left
      intro j _
      have hidx : ((k + 1) % N + j) % N = (k + (j + 1)) % N := by
        rw [Nat.mod_add_mod]
        have : k + 1 + j = k + (j + 1) := by omega
        rw [this]
      simp only [Function.comp, hidx, Nat.succ_eq_add_one]

theorem rotate_eq_range_map (l : List CredEntry) (k : Nat) (hl : l ≠ []) :
    l.rotate k =
      (List.range l.length).map
        (fun j => l.getD ((k + j) % l.length) default) := by
  apply List.ext_getElem
  · simp
  · intro n h1 h2
    rw [List.getElem_rotate]
    simp only [List.getElem_map, List.getElem_range]
    have hlt : (k + n) % l.length < l.length :=
      Nat.mod_lt _ (List.length_pos.mpr hl)
    rw [List.getD_eq_getElem _ _ hlt]
    congr 1
    rw [Nat.add_comm n k]

/-- C6 (amended): with the round-robin strategy, N consecutive `next()`
calls on a pool with N active entries and no status changes return each
active entry exactly once before any repeat, in cyclic insertion order
starting at the rotation cursor — i.e. the result sequence is the active
list rotated by `currentIndex % N` (each entry stamped with `lastUsed`);
a fresh pool (cursor 0) yields exact insertion order. -/
theorem roundRobin_visits_in_rotated_insertion_order (p : Pool) (now : String)
    (N : Nat) (hstrat : p.strategy = .roundRobin) (hN : p.activeCount = N)
    (hpos : 0 < N) :
    (p.nextSeq now N).1 =
      (p.activeList.rotate (p.currentIndex % N)).map
        (fun e => some (stampEntry now e)) ∧
    (p.nextSeq now N).1.Perm
      (p.activeList.map (fun e => some (stampEntry now e))) := by
  have hlen : p.activeList.length = N := hN
  have hne : p.activeList ≠ [] := by
    intro h0
    rw [h0] at hlen
    simp at hlen
    omega
  have hmain := nextSeq_roundRobin_aux now p.activeList N hpos N p
    (p.currentIndex % N) hstrat hlen rfl (fun _ => rfl)
  have hrot : (p.activeList.rotate (p.currentIndex % N)).map
      (fun e => some (stampEntry now e)) = (p.nextSeq now N).1 := by
    rw [hmain, rotate_eq_range_map p.activeList (p.currentIndex % N) hne, hlen,
      List.map_map]
    rfl
  refine ⟨hrot.symm, ?_⟩
  rw [← hrot]
  exact (List.rotate_perm _ _).map _

/-- C6 counterexample: on a reachable round-robin pool whose cursor is 1
(two active entries, inserted as [a, b]), two consecutive `next()` calls
return [b, a] — not the insertion order [a, b] the claim states. -/
theorem roundRobin_insertion_order_counterexample :
    (poolCursorOne.nextSeq "t" 2).1.map (Option.map CredEntry.id)
        = [some "b", some "a"] ∧
    poolCursorOne.activeList.map (fun e => some e.id)
        = [some "a", some "b"] ∧
    (poolCursorOne.nextSeq "t" 2).1.map (Option.map CredEntry.id)
        ≠ poolCursorOne.activeList.map (fun e => some e.id) := by
  refine ⟨?_, ?_, ?_⟩ <;> decide

theorem roundRobin_rotation_witness :
    (poolCursorOne.strategy = .roundRobin ∧ poolCursorOne.activeCount = 2 ∧
      0 < 2) ∧
    ((poolCursorOne.nextSeq "t" 2).1 =
      (poolCursorOne.activeList.rotate (poolCursorOne.currentIndex % 2)).map
        (fun e => some (stampEntry "t" e)) ∧
    (poolCursorOne.nextSeq "t" 2).1.Perm
      (poolCursorOne.activeList.map (fun e => some (stampEntry "t" e)))) :=
  ⟨⟨rfl, rfl, by decide⟩,
   roundRobin_visits_in_rotated_insertion_order poolCursorOne "t" 2 rfl rfl
     (by decide)⟩

/-- C9 (amended): every entry-mutating pool operation (markFailed,
markSuccess, markExpired, resetStatus, add, set, remove, reorder) keeps the
persisted credential file in sync with the in-memory entries; `setStrategy`
however performs no write at all — it mutates only the in-memory strategy,
which is never persisted. -/
theorem pool_mutations_persist_except_setStrategy (p : Pool) (st : Store)
    (id err fid now : String) (creds : Creds) (ids : List String)
    (s : PoolStrategy) (h : inSync p st) :
    inSync (p.markFailed st id err).1 (p.markFailed st id err).2 ∧
    inSync (p.markSuccess st id).1 (p.markSuccess st id).2 ∧
    inSync (p.markExpired st id).1 (p.markExpired st id).2 ∧
    inSync (p.resetStatus st id).1 (p.resetStatus st id).2 ∧
    inSync (p.add st creds fid now).1 (p.add st creds fid now).2 ∧
    inSync (p.set st creds fid now).1 (p.set st creds fid now).2 ∧
    inSync (p.remove st id).1 (p.remove st id).2.1 ∧
    inSync (p.reorder st ids).1 (p.reorder st ids).2 ∧
    ((p.setStrategy st s).2 = st ∧ (p.setStrategy st s).1.entries = p.entries) := by
  have h' : st = some (.arrayForm p.entries) := h
  refine ⟨?_, ?_, ?_, ?_, ?_, ?_, ?_, ?_, ?_⟩
  · unfold Pool.markFailed
    cases findById id p.entries <;> simp [inSync, save, h']
  · unfold Pool.markSuccess
    cases findById id p.entries <;> simp [inSync, save, h']
  · unfold Pool.markExpired
    cases findById id p.entries <;> simp [inSync, save, h']
  · unfold Pool.resetStatus
    cases findById id p.entries <;> simp [inSync, save, h']
  · unfold Pool.add
    simp [inSync, save]
  · unfold Pool.set Pool.add
    split <;> simp [inSync, save]
  · unfold Pool.remove
    cases p.entries.findIdx? (fun e => e.id == id) <;> simp [inSync, save, h']
  · unfold Pool.reorder
    simp [inSync, save]
  · exact ⟨rfl, rfl⟩

/-- C9 counterexample: `setStrategy` is a mutating call (the strategy
changes) after which nothing was written — started from an absent
credential file, the file is still absent, so the persisted store does not
reflect the in-memory pool. -/
theorem setStrategy_no_persist_counterexample :
    (Pool.setStrategy ⟨[witEntry], 0, .roundRobin⟩ none .random).1.strategy
        = PoolStrategy.random ∧
    (Pool.setStrategy ⟨[witEntry], 0, .roundRobin⟩ none .random).2 = none :=
  ⟨rfl, rfl⟩

theorem pool_mutations_persist_witness :
    inSync ⟨[witEntry], 0, .roundRobin⟩ (some (.arrayForm [witEntry])) ∧
    (inSync (Pool.markFailed ⟨[witEntry], 0, .roundRobin⟩ (some (.arrayForm [witEntry])) "a" "e").1
        (Pool.markFailed ⟨[witEntry], 0, .roundRobin⟩ (some (.arrayForm [witEntry])) "a" "e").2 ∧
     inSync (Pool.markSuccess ⟨[witEntry], 0, .roundRobin⟩ (some (.arrayForm [witEntry])) "a").1
        (Pool.markSuccess ⟨[witEntry], 0, .roundRobin⟩ (some (.arrayForm [witEntry])) "a").2 ∧
     inSync (Pool.markExpired ⟨[witEntry], 0, .roundRobin⟩ (some (.arrayForm [witEntry])) "a").1
        (Pool.markExpired ⟨[witEntry], 0, .roundRobin⟩ (some (.arrayForm [witEntry])) "a").2 ∧
     inSync (Pool.resetStatus ⟨[witEntry], 0, .roundRobin⟩ (some (.arrayForm [witEntry])) "a").1
        (Pool.resetStatus ⟨[witEntry], 0, .roundRobin⟩ (some (.arrayForm [witEntry])) "a").2 ∧
     inSync (Pool.add ⟨[witEntry], 0, .roundRobin⟩ (some (.arrayForm [witEntry])) ⟨none, []⟩ "f" "n").1
        (Pool.add ⟨[witEntry], 0, .roundRobin⟩ (some (.arrayForm [witEntry])) ⟨none, []⟩ "f" "n").2 ∧
     inSync (Pool.set ⟨[witEntry], 0, .roundRobin⟩ (some (.arrayForm [witEntry])) ⟨none, []⟩ "f" "n").1
        (Pool.set ⟨[witEntry], 0, .roundRobin⟩ (some (.arrayForm [witEntry])) ⟨none, []⟩ "f" "n").2 ∧
     inSync (Pool.remove ⟨[witEntry], 0, .roundRobin⟩ (some (.arrayForm [witEntry])) "a").1
        (Pool.remove ⟨[witEntry], 0, .roundRobin⟩ (some (.arrayForm [witEntry])) "a").2.1 ∧
     inSync (Pool.reorder ⟨[witEntry], 0, .roundRobin⟩ (some (.arrayForm [witEntry])) ["a"]).1
        (Pool.reorder ⟨[witEntry], 0, .roundRobin⟩ (some (.arrayForm [witEntry])) ["a"]).2 ∧
     ((Pool.setStrategy ⟨[witEntry], 0, .roundRobin⟩ (some (.arrayForm [witEntry])) .random).2
          = some (.arrayForm [witEntry]) ∧
      (Pool.setStrategy ⟨[witEntry], 0, .roundRobin⟩ (some (.arrayForm [witEntry])) .random).1.entries
          = (Pool.mk [witEntry] 0 .roundRobin).entries)) :=
  ⟨rfl,
   pool_mutations_persist_except_setStrategy ⟨[witEntry], 0, .roundRobin⟩
     (some (.arrayForm [witEntry])) "a" "e" "f" "n" ⟨none, []⟩ ["a"] .random rfl⟩

/-! ## Theorems: request admission queue -/

/-- C4: with `maxPerMinute = 3`, five rapid `enqueue` calls for one provider
key admit exactly 3 tasks in the first 60-second window and defer the other
2 to the next window; admission is FIFO, no task is dropped or rejected, and
all five tasks settle. -/
theorem requestQueue_rate_limit_defers_not_drops :
    c4Result.admitted.map Prod.fst = [1, 2, 3, 4, 5] ∧
    (c4Result.admitted.filter (fun a => a.2 < 60000)).length = 3 ∧
    (c4Result.admitted.filter
        (fun a => 60000 ≤ a.2 && a.2 < 120000)).length = 2 ∧
    c4Result.resolved.map Prod.fst = [1, 2, 3, 4, 5] ∧
    c4Result.queue = [] ∧ c4Result.pendingDone = [] ∧
    c4Result.pendingEnq = [] := by
  decide

/-! ## Theorems: tool-call extraction -/

theorem feedChars_append (st : StreamSt) (xs ys : List Char) :
    feedChars st (xs ++ ys) =
      ((feedChars (feedChars st xs).1 ys).1,
       (feedChars st xs).2.1 ++ (feedChars (feedChars st xs).1 ys).2.1,
       (feedChars st xs).2.2 ++ (feedChars (feedChars st xs).1 ys).2.2) := by
  induction xs generalizing st with
  | nil => simp [feedChars]
  | cons c rest ih =>
      simp only [List.cons_append, feedChars, List.append_eq]
      rw [ih]
      simp [List.append_assoc]

theorem feedAll_eq_join (st : StreamSt) (chunks : List (List Char)) :
    feedAll st chunks = feedChars st chunks.flatten := by
  induction chunks generalizing st with
  | nil => simp [feedAll, feedChars]
  | cons c rest ih => simp [feedAll, List.flatten_cons, feedChars_append, ih]

/-- C1 (amended): the streaming tool-call parser is chunking-invariant —
for every text and every way of splitting it into chunks fed to `feed()`
(with `flush()` at the end), the concatenated pendingText and the ordered
completedCalls equal those of feeding the whole text in a single `feed()`
call.  (Agreement with the whole-text `parseToolCalls` does not hold in
general; see the counterexample.) -/
theorem streaming_toolcalls_chunk_invariant (chunks : List (List Char)) :
    runStream chunks = runStream [chunks.flatten] := by
  simp [runStream, feedAll_eq_join, feedAll]

/-- C1 counterexample: on `</tool_call <tool_call name="a">{}</tool_call>`
(fed in one shot, flushed), the streaming parser emits the whole text
verbatim with zero completed calls — the stray `</tool_call ` head is
buffered up to its first `>` and flushed as text, swallowing the
well-formed tag — while the whole-text `parseToolCalls` extracts one call
named "a". -/
theorem streaming_vs_wholetext_counterexample :
    (runStream [c1Text.toList]).2 = [] ∧
    (parseToolCalls c1Text).toolCalls.map ToolCall.name = ["a"] ∧
    (runStream [c1Text.toList]).2.map ToolCall.name ≠
      (parseToolCalls c1Text).toolCalls.map ToolCall.name ∧
    String.mk (runStream [c1Text.toList]).1 = c1Text := by
  refine ⟨?_, ?_, ?_, ?_⟩ <;> decide

/-! ## Theorems: stream converters -/

theorem splitNl_ne_nil (cs : List Char) : splitNl cs ≠ [] := by
  cases cs with
  | nil => simp [splitNl]
  | cons c rest =>
      simp only [splitNl]
      split
      · simp
      · split <;> simp

theorem splitNl_nlfree_append (b cs : List Char) (hb : ∀ c ∈ b, c ≠ '\n') :
    splitNl (b ++ cs) = (b ++ (splitNl cs).headD []) :: (splitNl cs).tail := by
  induction b with
  | nil =>
      simp only [List.nil_append]
      cases h : splitNl cs with
      | nil => exact absurd h (splitNl_ne_nil cs)
      | cons l ls => simp
  | cons c b ih =>
      have hc : c ≠ '\n' := hb c (List.mem_cons_self c b)
      have hb2 : ∀ x ∈ b, x ≠ '\n' := fun x hx => hb x (List.mem_cons_of_mem c hx)
      simp only [List.cons_append, splitNl, List.append_eq]
      rw [if_neg (by simpa using hc), ih hb2]

theorem splitNl_nlfree (b : List Char) (hb : ∀ c ∈ b, c ≠ '\n') :
    splitNl b = [b] := by
  have := splitNl_nlfree_append b [] hb
  simpa [splitNl] using this

theorem getLastD_irrel {α : Type} (l : List α) (h : l ≠ []) (d1 d2 : α) :
    l.getLastD d1 = l.getLastD d2 := by
  cases l with
  | nil => exact absurd rfl h
  | cons a rest => rw [List.getLastD_cons, List.getLastD_cons]

theorem getLastD_splitNl_nlfree (cs : List Char) :
    ∀ c ∈ (splitNl cs).getLastD [], c ≠ '\n' := by
  induction cs with
  | nil => simp [splitNl]
  | cons c rest ih =>
      by_cases hc : c = '\n'
      · subst hc
        have h1 : splitNl ('\n' :: rest) = [] :: splitNl rest := by
          simp [splitNl]
        rw [h1, List.getLastD_cons]
        exact ih
      · cases h : splitNl rest with
        | nil => exact absurd h (splitNl_ne_nil rest)
        | cons l ls =>
            have h2 : splitNl (c :: rest) = (c :: l) :: ls := by
              simp [splitNl, hc, h]
            rw [h2, List.getLastD_cons]
            cases ls with
            | nil =>
                intro x hx
                rcases List.mem_cons.mp (by simpa using hx) with h3 | h3
                · subst h3; exact hc
                · have hi := ih
                  rw [h, List.getLastD_cons] at hi
                  exact hi x (by simpa using h3)
            | cons m ms =>
                have hi := ih
                rw [h, List.getLastD_cons] at hi
                rw [getLastD_irrel (m :: ms) (by simp) (c :: l) l]
                exact hi

theorem feedChunkG_newline {σ : Type} (f : σ → List Char → σ × List OutChunk)
    (r : ChunkFeed σ) (rest : List Char) (hb : ∀ c ∈ r.buffer, c ≠ '\n') :
    feedChunkG f r ('\n' :: rest) =
      feedChunkG f ⟨[], (f r.state r.buffer).1, r.out ++ (f r.state r.buffer).2⟩
        rest := by
  have h1 : splitNl (r.buffer ++ '\n' :: rest) = r.buffer :: splitNl rest := by
    rw [splitNl_nlfree_append _ _ hb]
    simp [splitNl]
  cases h2 : splitNl rest with
  | nil => exact absurd h2 (splitNl_ne_nil rest)
  | cons l ls =>
      unfold feedChunkG
      rw [h1, h2]
      simp only [List.nil_append]
      rw [h2]
      simp [linesOut, List.getLastD_cons, List.append_assoc, List.dropLast]

theorem feedChunkG_cons_ne {σ : Type} (f : σ → List Char → σ × List OutChunk)
    (r : ChunkFeed σ) (c : Char) (rest : List Char) :
    feedChunkG f r (c :: rest) =
      feedChunkG f ⟨r.buffer ++ [c], r.state, r.out⟩ rest := by
  unfold feedChunkG
  rw [show r.buffer ++ c :: rest = (r.buffer ++ [c]) ++ rest by simp]

theorem feedChunkG_eq_charFeed {σ : Type} (f : σ → List Char → σ × List OutChunk)
    (chunk : List Char) :
    ∀ (r : ChunkFeed σ), (∀ c ∈ r.buffer, c ≠ '\n') →
      feedChunkG f r chunk = charFeedG f r chunk := by
  induction chunk with
  | nil =>
      intro r hb
      simp [feedChunkG, charFeedG, splitNl_nlfree r.buffer hb, linesOut]
  | cons c rest ih =>
      intro r hb
      by_cases hc : c = '\n'
      · subst hc
        rw [feedChunkG_newline f r rest hb]
        show _ = charFeedG f (charStepG f r '\n') rest
        rw [show charStepG f r '\n' =
            ⟨[], (f r.state r.buffer).1, r.out ++ (f r.state r.buffer).2⟩ by
          simp [charStepG]]
        exact ih _ (by simp)
      · rw [feedChunkG_cons_ne f r c rest]
        show _ = charFeedG f (charStepG f r c) rest
        rw [show charStepG f r c = ⟨r.buffer ++ [c], r.state, r.out⟩ by
          simp [charStepG, hc]]
        refine ih _ ?_
        intro x hx
        rcases List.mem_append.mp hx with h3 | h3
        · exact hb x h3
        · rw [List.mem_singleton.mp h3]; exact hc

theorem charFeedG_append {σ : Type} (f : σ → List Char → σ × List OutChunk)
    (xs ys : List Char) : ∀ (r : ChunkFeed σ),
    charFeedG f r (xs ++ ys) = charFeedG f (charFeedG f r xs) ys := by
  induction xs with
  | nil => intro r; rfl
  | cons c rest ih => intro r; simp only [List.cons_append, charFeedG]; exact ih _

theorem charFeedG_buffer_nlfree {σ : Type} (f : σ → List Char → σ × List OutChunk)
    (cs : List Char) : ∀ (r : ChunkFeed σ), (∀ c ∈ r.buffer, c ≠ '\n') →
    ∀ c ∈ (charFeedG f r cs).buffer, c ≠ '\n' := by
  induction cs with
  | nil => intro r hb; exact hb
  | cons c rest ih =>
      intro r hb
      show ∀ x ∈ (charFeedG f (charStepG f r c) rest).buffer, x ≠ '\n'
      by_cases hc : c = '\n'
      · subst hc
        refine ih _ ?_
        simp [charStepG]
      · refine ih _ ?_
        intro x hx
        rw [show charStepG f r c = ⟨r.buffer ++ [c], r.state, r.out⟩ by
          simp [charStepG, hc]] at hx
        rcases List.mem_append.mp hx with h3 | h3
        · exact hb x h3
        · rw [List.mem_singleton.mp h3]; exact hc

theorem feedAllG_eq_charFeed {σ : Type} (f : σ → List Char → σ × List OutChunk)
    (chunks : List (List Char)) :
    ∀ (r : ChunkFeed σ), (∀ c ∈ r.buffer, c ≠ '\n') →
      feedAllG f r chunks = charFeedG f r chunks.flatten := by
  induction chunks with
  | nil => intro r _; rfl
  | cons ch rest ih =>
      intro r hb
      show feedAllG f (feedChunkG f r ch) rest = _
      rw [feedChunkG_eq_charFeed f ch r hb,
          ih _ (charFeedG_buffer_nlfree f ch r hb),
          List.flatten_cons, charFeedG_append]

/-- Chunking-invariance of the DeepSeek converter: the output stream
depends only on the concatenated upstream bytes, not on how they were
split into `transform` chunks. -/
theorem dsConvert_chunk_invariant (model : String) (opts : DSOpts)
    (chunks : List (List Char)) :
    dsConvert model opts chunks = dsConvert model opts [chunks.flatten] := by
  unfold dsConvert
  rw [feedAllG_eq_charFeed _ chunks _ (by simp),
      feedAllG_eq_charFeed _ [chunks.flatten] _ (by simp)]
  simp

theorem litAt_append_self (lit rest : List Char) : litAt (lit ++ rest) lit = true := by
  induction lit with
  | nil =>
      simp only [List.nil_append]
      cases rest <;> rfl
  | cons l ls ih => simp [litAt, ih]

theorem splitAtLitCS_append_isSome (before lit after : List Char) (hne : lit ≠ []) :
    (splitAtLitCS (before ++ lit ++ after) lit).isSome = true := by
  induction before with
  | nil =>
      obtain ⟨l, ls, rfl⟩ : ∃ l ls, lit = l :: ls := by
        cases lit with
        | nil => exact absurd rfl hne
        | cons l ls => exact ⟨l, ls, rfl⟩
      rw [List.nil_append]
      have hcons : (l :: ls) ++ after = l :: (ls ++ after) := rfl
      rw [hcons]
      simp only [splitAtLitCS]
      rw [show litAt (l :: (ls ++ after)) (l :: ls) = true from litAt_append_self (l :: ls) after]
      simp
  | cons c b ih =>
      rw [List.cons_append]
      simp only [splitAtLitCS]
      split
      · simp
      · cases hs : splitAtLitCS (b ++ lit ++ after) lit with
        | none => rw [hs] at ih; simp at ih
        | some pa => simp [hs]

/-- The per-frame effect of an embedded end-of-thinking marker: for ANY
`stripReasoning` setting and any prior state — the text before the marker
is dropped, the text after it is emitted as a content chunk, and the state
flips to the content phase. -/
theorem dsFrame_marker_split (opts : DSOpts) (st : DSState)
    (before after : List Char)
    (hafter : afterLastOcc ((before ++ endThinkMarker ++ after).length + 1)
        (before ++ endThinkMarker ++ after) endThinkMarker = after)
    (hsan : sanitize (String.mk after) false = some (String.mk after))
    (htrim : (trimJsList after).isEmpty = false) :
    dsFrame opts st
        (.obj [("v", .str (String.mk (before ++ endThinkMarker ++ after)))]) =
      ({ st with thinkingPhase := false, thinkingEnded := true,
                 hasAnyContent := true },
       [.contentDelta (String.mk after)]) := by
  have hsome : (splitAtLitCS (before ++ endThinkMarker ++ after)
      endThinkMarker).isSome = true :=
    splitAtLitCS_append_isSome before endThinkMarker after (by decide)
  unfold dsFrame
  rw [show Json.getField
      (.obj [("v", .str (String.mk (before ++ endThinkMarker ++ after)))])
      "response_message_id" = none from rfl]
  rw [show extractContent
      (.obj [("v", .str (String.mk (before ++ endThinkMarker ++ after)))])
      = some (String.mk (before ++ endThinkMarker ++ after)) from rfl]
  simp only
  rw [show (String.mk (before ++ endThinkMarker ++ after)).toList
      = before ++ endThinkMarker ++ after from rfl]
  rw [hsome]
  simp only [if_true]
  rw [show (before ++ endThinkMarker ++ after).length + 1
      = (before ++ endThinkMarker ++ after).length + 1 from rfl, hafter]
  rw [htrim]
  simp only [Bool.false_eq_true, if_false]
  rw [hsan]

theorem linesOut_append {σ : Type} (f : σ → List Char → σ × List OutChunk)
    (xs ys : List (List Char)) : ∀ (st : σ),
    linesOut f st (xs ++ ys) =
      ((linesOut f (linesOut f st xs).1 ys).1,
       (linesOut f st xs).2 ++ (linesOut f (linesOut f st xs).1 ys).2) := by
  induction xs with
  | nil => intro st; simp [linesOut]
  | cons l rest ih =>
      intro st
      simp only [List.cons_append, linesOut, List.append_eq]
      rw [ih]
      simp [List.append_assoc]

/-- A complete `data: [DONE]` upstream line emits the sentinel inline,
whatever the converter state. -/
theorem dsLine_done (opts : DSOpts) (st : DSState) :
    dsLine opts st "data: [DONE]".toList = (st, [.doneMark]) := rfl

theorem claudeLine_event_stop (st : String) :
    claudeLine st "event: message_stop".toList = ("message_stop", []) := rfl

theorem claudeLine_data_after_stop :
    claudeLine "message_stop" "data: \x7b\x7d".toList
      = ("message_stop", [.stopChunk, .doneMark]) := rfl

/-- C10: an upstream stream that contains its own terminal marker produces
the `[DONE]` sentinel at least twice — once inline and once from the
unconditional flush — and, for the Claude converter, two finish_reason
"stop" chunks as well. -/
theorem terminal_marker_double_done_and_stop (model : String) (opts : DSOpts)
    (pre post cpre cpost : List (List Char)) :
    2 ≤ countDone (dsConvertLines model opts
        (pre ++ ("data: [DONE]".toList :: post))) ∧
    2 ≤ countStop (claudeConvertLines
        (cpre ++ ("event: message_stop".toList :: "data: \x7b\x7d".toList :: cpost))) ∧
    2 ≤ countDone (claudeConvertLines
        (cpre ++ ("event: message_stop".toList :: "data: \x7b\x7d".toList :: cpost))) := by
  refine ⟨?_, ?_, ?_⟩
  · unfold dsConvertLines countDone
    rw [linesOut_append]
    simp only [linesOut, dsLine_done]
    simp [List.countP_append, List.countP_cons]
    omega
  · unfold claudeConvertLines countStop
    rw [linesOut_append]
    simp only [linesOut, claudeLine_event_stop, claudeLine_data_after_stop]
    simp [List.countP_append, List.countP_cons]
    omega
  · unfold claudeConvertLines countDone
    rw [linesOut_append]
    simp only [linesOut, claudeLine_event_stop, claudeLine_data_after_stop]
    simp [List.countP_append, List.countP_cons]
    omega

/-- C2 (amended): for the DeepSeek-family stream converter on any model and
any prior state, a frame embedding the end-of-thinking marker mid-fragment
discards the text before the marker unconditionally — it is neither
emitted as reasoning_content nor affected by `stripReasoning` — while the
text after the marker is emitted as a content chunk (when nonempty after
trim and sanitization); and the conversion output depends only on the
concatenated upstream bytes, not on which physical chunk boundary the
marker straddles. -/
theorem stream_marker_split_amended (opts : DSOpts) (st : DSState)
    (before after : List Char) (model : String) (chunks : List (List Char))
    (hafter : afterLastOcc ((before ++ endThinkMarker ++ after).length + 1)
        (before ++ endThinkMarker ++ after) endThinkMarker = after)
    (hsan : sanitize (String.mk after) false = some (String.mk after))
    (htrim : (trimJsList after).isEmpty = false) :
    (dsFrame opts st
        (.obj [("v", .str (String.mk (before ++ endThinkMarker ++ after)))]) =
      ({ st with thinkingPhase := false, thinkingEnded := true,
                 hasAnyContent := true },
       [.contentDelta (String.mk after)])) ∧
    dsConvert model opts chunks = dsConvert model opts [chunks.flatten] :=
  ⟨dsFrame_marker_split opts st before after hafter hsan htrim,
   dsConvert_chunk_invariant model opts chunks⟩

/-- C2 counterexample: on a reasoning-model stream whose second frame is
`tail<｜end▁of▁thinking｜>Answer`, with `stripReasoning` unset, the
converter emits no reasoning chunk for `tail` — the pre-marker text is
dropped, not emitted as reasoning_content as the claim states. -/
theorem marker_pre_text_dropped_counterexample :
    dsConvert "deepseek-reasoner" ⟨false, false⟩ [c2Input.toList] =
      [.reasoningDelta "think1", .contentDelta "Answer", .stopChunk,
       .doneMark] ∧
    OutChunk.reasoningDelta "tail" ∉
      dsConvert "deepseek-reasoner" ⟨false, false⟩ [c2Input.toList] := by
  refine ⟨?_, ?_⟩ <;> decide

theorem stream_marker_split_witness :
    (afterLastOcc (("tail".toList ++ endThinkMarker ++ "Answer".toList).length + 1)
        ("tail".toList ++ endThinkMarker ++ "Answer".toList) endThinkMarker
        = "Answer".toList ∧
     sanitize (String.mk "Answer".toList) false
        = some (String.mk "Answer".toList) ∧
     (trimJsList "Answer".toList).isEmpty = false) ∧
    ((dsFrame ⟨false, false⟩ (dsInit "deepseek-reasoner")
        (.obj [("v", .str (String.mk
            ("tail".toList ++ endThinkMarker ++ "Answer".toList)))]) =
      ({ (dsInit "deepseek-reasoner") with
          thinkingPhase := false,
          thinkingEnded := true, hasAnyContent := true },
       [.contentDelta (String.mk "Answer".toList)])) ∧
    dsConvert "deepseek-reasoner" ⟨false, false⟩ [c2Input.toList] =
      dsConvert "deepseek-reasoner" ⟨false, false⟩ [[c2Input.toList].flatten]) :=
  ⟨⟨by decide, by decide, by decide⟩,
   stream_marker_split_amended ⟨false, false⟩ (dsInit "deepseek-reasoner")
     "tail".toList "Answer".toList "deepseek-reasoner" [c2Input.toList]
     (by decide) (by decide) (by decide)⟩

/-! ## Theorems: provider adapter failover -/

theorem evChat_beq_create (c : String) :
    (ChatEvent.evChat c == ChatEvent.evCreateSession) = false := rfl

theorem evMarkSuccess_beq_create (c : String) :
    (ChatEvent.evMarkSuccess c == ChatEvent.evCreateSession) = false := rfl

theorem evMarkFailed_beq_create (c e : String) :
    (ChatEvent.evMarkFailed c e == ChatEvent.evCreateSession) = false := rfl

theorem evChat_beq_delete (c : String) :
    (ChatEvent.evChat c == ChatEvent.evSessionDelete) = false := rfl

theorem evMarkSuccess_beq_delete (c : String) :
    (ChatEvent.evMarkSuccess c == ChatEvent.evSessionDelete) = false := rfl

theorem evMarkFailed_beq_delete (c e : String) :
    (ChatEvent.evMarkFailed c e == ChatEvent.evSessionDelete) = false := rfl

/-- The Qwen adapter never touches any session state: no branch of its
chat() emits a session-creation or session-invalidation event. -/
theorem qwenChat_no_session_events (pool : Pool) (st : Store) (oracle : Oracle)
    (now : String) (r1 r2 : Nat) :
    countCreateSessionEv (qwenChat pool st oracle now r1 r2).events = 0 ∧
    hasSessionDelete (qwenChat pool st oracle now r1 r2).events = false := by
  unfold qwenChat
  cases h1 : (pool.next now r1).1 with
  | none =>
      simp [h1, countCreateSessionEv, hasSessionDelete]
  | some entry =>
      cases h2 : oracle.chatCall 0 with
      | ok _ =>
          simp [h1, h2, countCreateSessionEv, hasSessionDelete,
            List.countP_cons, evChat_beq_create, evMarkSuccess_beq_create,
            evChat_beq_delete, evMarkSuccess_beq_delete]
      | error e =>
          by_cases ha : qwenIsAuthErr e = true
          · cases hn : (((pool.next now r1).2.markFailed st entry.id e).1.next
                now r2).1 with
            | none =>
                simp [h1, h2, ha, hn, countCreateSessionEv, hasSessionDelete,
                  List.countP_cons, evChat_beq_create, evMarkFailed_beq_create,
                  evChat_beq_delete, evMarkFailed_beq_delete]
            | some fb =>
                by_cases hid : fb.id = entry.id
                · have hbne : (fb.id != entry.id) = false := by simp [hid]
                  simp [h1, h2, ha, hn, hbne, countCreateSessionEv,
                    hasSessionDelete, List.countP_cons, evChat_beq_create,
                    evMarkFailed_beq_create, evChat_beq_delete,
                    evMarkFailed_beq_delete]
                · have hbne : (fb.id != entry.id) = true := by simp [hid]
                  cases h3 : oracle.chatCall 1 with
                  | ok _ =>
                      simp [h1, h2, ha, hn, hbne, h3, countCreateSessionEv,
                        hasSessionDelete, List.countP_cons, evChat_beq_create,
                        evMarkFailed_beq_create, evMarkSuccess_beq_create,
                        evChat_beq_delete, evMarkFailed_beq_delete,
                        evMarkSuccess_beq_delete]
                  | error e2 =>
                      simp [h1, h2, ha, hn, hbne, h3, countCreateSessionEv,
                        hasSessionDelete, List.countP_cons, evChat_beq_create,
                        evMarkFailed_beq_create, evChat_beq_delete,
                        evMarkFailed_beq_delete]
          · have ha2 : qwenIsAuthErr e = false := by
              cases hq : qwenIsAuthErr e
              · rfl
              · exact absurd hq ha
            simp [h1, h2, ha2, countCreateSessionEv, hasSessionDelete,
              List.countP_cons, evChat_beq_create, evMarkFailed_beq_create,
              evChat_beq_delete, evMarkFailed_beq_delete]

/-- C3 counterexample: the Qwen adapter performs no session-recreation
retry at all.  With one credential and an upstream "401" error, chat()
makes exactly one upstream call, never creates a session, marks the
credential failed once and rethrows — the claim's
"creates exactly one fresh session and retries the upstream call exactly
once" is false for this adapter. -/
theorem qwen_no_session_retry_counterexample :
    (qwenChat ⟨[witEntry], 0, .roundRobin⟩ none oracle401 "t" 0 0).events =
      [.evChat "a", .evMarkFailed "a" "e401"] ∧
    (qwenChat ⟨[witEntry], 0, .roundRobin⟩ none oracle401 "t" 0 0).outcome =
      .error "e401" ∧
    countCreateSessionEv
      (qwenChat ⟨[witEntry], 0, .roundRobin⟩ none oracle401 "t" 0 0).events = 0 ∧
    (chatCredsOf
      (qwenChat ⟨[witEntry], 0, .roundRobin⟩ none oracle401 "t" 0 0).events).length
      = 1 := by
  refine ⟨?_, ?_, ?_, ?_⟩ <;> decide

/-- C3 (amended): the DeepSeek and Claude adapters (whose chat() flows are
identical up to the auth signature, here any `authP`) behave as claimed:
with a cached session, (1) an empty pool raises the no-credential error
with no side effects; (2) a first-chat success marks the serving
credential; (3) a non-auth error marks the credential failed and
propagates immediately, with no session invalidation and no failover;
(4) an auth-class error deletes the cached session, creates exactly one
fresh session and retries exactly once on the same credential;
(5) if that retry fails the credential is marked failed and `pool.next()`
is consulted once — when it yields no entry or the same entry the retry's
error propagates, and when it yields a distinct entry the full
create-session-and-chat sequence runs once on it, ending in markSuccess
of the fallback credential.  The Qwen adapter differs: it has no session
bookkeeping — (6) on a 401/403 it marks the credential failed immediately
with no session events and fails over directly (at most one fallback chat
on a distinct credential, the original error propagating otherwise);
(7) success and (8) non-auth errors behave like the other adapters. -/
theorem adapter_failover_amended (authP : String → Bool) (msg0 : String)
    (pool : Pool) (st : Store) (sid0 : String) (oracle : Oracle)
    (now : String) (r1 r2 : Nat) (e : String) (en : CredEntry) :
    ((pool.next now r1).1 = none →
      (sessionChat authP msg0 pool st (some sid0) oracle now r1 r2).outcome
          = .error msg0 ∧
      (sessionChat authP msg0 pool st (some sid0) oracle now r1 r2).events = []) ∧
    ((pool.next now r1).1 = some en → oracle.chatCall 0 = .ok () →
      (sessionChat authP msg0 pool st (some sid0) oracle now r1 r2).outcome
          = .ok 0 ∧
      (sessionChat authP msg0 pool st (some sid0) oracle now r1 r2).events
          = [.evChat en.id, .evMarkSuccess en.id]) ∧
    ((pool.next now r1).1 = some en → oracle.chatCall 0 = .error e →
      authP e = false →
      (sessionChat authP msg0 pool st (some sid0) oracle now r1 r2).outcome
          = .error e ∧
      (sessionChat authP msg0 pool st (some sid0) oracle now r1 r2).events
          = [.evChat en.id, .evMarkFailed en.id e]) ∧
    ((pool.next now r1).1 = some en → oracle.chatCall 0 = .error e →
      authP e = true → ∀ sid2, oracle.createSession 0 = .ok sid2 →
      oracle.chatCall 1 = .ok () →
      (sessionChat authP msg0 pool st (some sid0) oracle now r1 r2).outcome
          = .ok 1 ∧
      (sessionChat authP msg0 pool st (some sid0) oracle now r1 r2).events
          = [.evChat en.id, .evSessionDelete, .evCreateSession,
             .evSessionSet sid2, .evChat en.id, .evMarkSuccess en.id]) ∧
    ((pool.next now r1).1 = some en → oracle.chatCall 0 = .error e →
      authP e = true → ∀ sid2 e2, oracle.createSession 0 = .ok sid2 →
      oracle.chatCall 1 = .error e2 →
      ((fallbackNext pool st now r1 r2 en.id e2 = none ∨
        (∃ fb, fallbackNext pool st now r1 r2 en.id e2 = some fb ∧
               fb.id = en.id)) →
        (sessionChat authP msg0 pool st (some sid0) oracle now r1 r2).outcome
            = .error e2) ∧
      (∀ fb sid3, fallbackNext pool st now r1 r2 en.id e2 = some fb →
        fb.id ≠ en.id → oracle.createSession 1 = .ok sid3 →
        oracle.chatCall 2 = .ok () →
        (sessionChat authP msg0 pool st (some sid0) oracle now r1 r2).outcome
            = .ok 2 ∧
        chatCredsOf
          (sessionChat authP msg0 pool st (some sid0) oracle now r1 r2).events
            = [en.id, en.id, fb.id] ∧
        (sessionChat authP msg0 pool st (some sid0) oracle now r1 r2).events.getLast?
            = some (.evMarkSuccess fb.id))) ∧
    ((pool.next now r1).1 = some en → oracle.chatCall 0 = .error e →
      qwenIsAuthErr e = true →
      countCreateSessionEv (qwenChat pool st oracle now r1 r2).events = 0 ∧
      hasSessionDelete (qwenChat pool st oracle now r1 r2).events = false ∧
      ((fallbackNext pool st now r1 r2 en.id e = none ∨
        (∃ fb, fallbackNext pool st now r1 r2 en.id e = some fb ∧
               fb.id = en.id)) →
        (qwenChat pool st oracle now r1 r2).outcome = .error e ∧
        (qwenChat pool st oracle now r1 r2).events
            = [.evChat en.id, .evMarkFailed en.id e]) ∧
      (∀ fb, fallbackNext pool st now r1 r2 en.id e = some fb →
        fb.id ≠ en.id → oracle.chatCall 1 = .ok () →
        (qwenChat pool st oracle now r1 r2).outcome = .ok 1 ∧
        (qwenChat pool st oracle now r1 r2).events
            = [.evChat en.id, .evMarkFailed en.id e, .evChat fb.id,
               .evMarkSuccess fb.id])) ∧
    ((pool.next now r1).1 = some en → oracle.chatCall 0 = .ok () →
      (qwenChat pool st oracle now r1 r2).outcome = .ok 0 ∧
      (qwenChat pool st oracle now r1 r2).events
          = [.evChat en.id, .evMarkSuccess en.id]) ∧
    ((pool.next now r1).1 = some en → oracle.chatCall 0 = .error e →
      qwenIsAuthErr e = false →
      (qwenChat pool st oracle now r1 r2).outcome = .error e ∧
      (qwenChat pool st oracle now r1 r2).events
          = [.evChat en.id, .evMarkFailed en.id e]) := by
  refine ⟨?_, ?_, ?_, ?_, ?_, ?_, ?_, ?_⟩
  · intro h1
    simp [sessionChat, h1]
  · intro h1 h2
    simp [sessionChat, h1, sessionChatBody, h2]
  · intro h1 h2 h3
    simp [sessionChat, h1, sessionChatBody, h2, h3]
  · intro h1 h2 h3 sid2 h4 h5
    simp [sessionChat, h1, sessionChatBody, h2, h3, h4, h5]
  · intro h1 h2 h3 sid2 e2 h4 h5
    constructor
    · intro hfb
      simp only [fallbackNext] at hfb
      rcases hfb with hfb | ⟨fb, hfb, hid⟩
      · simp [sessionChat, h1, sessionChatBody, h2, h3, h4, h5,
          sessionFallback, hfb]
      · simp [sessionChat, h1, sessionChatBody, h2, h3, h4, h5,
          sessionFallback, hfb, hid]
    · intro fb sid3 hfb hne h6 h7
      simp only [fallbackNext] at hfb
      have hbne : (fb.id != en.id) = true := by simp [hne]
      simp [sessionChat, h1, sessionChatBody, h2, h3, h4, h5,
        sessionFallback, hfb, hbne, h6, h7, chatCredsOf]
  · intro h1 h2 h3
    obtain ⟨hc, hd⟩ := qwenChat_no_session_events pool st oracle now r1 r2
    refine ⟨hc, hd, ?_, ?_⟩
    · intro hfb
      simp only [fallbackNext] at hfb
      rcases hfb with hfb | ⟨fb, hfb, hid⟩
      · simp [qwenChat, h1, h2, h3, hfb]
      · have hbne : (fb.id != en.id) = false := by simp [hid]
        simp [qwenChat, h1, h2, h3, hfb, hbne]
    · intro fb hfb hne hok
      simp only [fallbackNext] at hfb
      have hbne : (fb.id != en.id) = true := by simp [hne]
      simp [qwenChat, h1, h2, h3, hfb, hbne, hok]
  · intro h1 h2
    simp [qwenChat, h1, h2]
  · intro h1 h2 h3
    simp [qwenChat, h1, h2, h3]

theorem adapter_failover_witness :
    ((poolAB.next "t" 0).1 = some (stampEntry "t" witEntry) ∧
     oracle401.chatCall 0 = .error "e401" ∧
     dsIsAuthErr "e401" = true ∧
     oracle401.createSession 0 = .ok "s1" ∧
     oracle401.chatCall 1 = .ok () ∧
     qwenIsAuthErr "e401" = true ∧
     fallbackNext poolAB none "t" 0 0 (stampEntry "t" witEntry).id "e401"
        = some (stampEntry "t" witEntryB) ∧
     (stampEntry "t" witEntryB).id ≠ (stampEntry "t" witEntry).id) ∧
    ((sessionChat dsIsAuthErr dsNoCredMsg poolAB none (some "sid0") oracle401
        "t" 0 0).outcome = .ok 1 ∧
     (sessionChat dsIsAuthErr dsNoCredMsg poolAB none (some "sid0") oracle401
        "t" 0 0).events
        = [.evChat "a", .evSessionDelete, .evCreateSession, .evSessionSet "s1",
           .evChat "a", .evMarkSuccess "a"] ∧
     (qwenChat poolAB none oracle401 "t" 0 0).outcome = .ok 1 ∧
     (qwenChat poolAB none oracle401 "t" 0 0).events
        = [.evChat "a", .evMarkFailed "a" "e401", .evChat "b",
           .evMarkSuccess "b"]) := by
  have H := adapter_failover_amended dsIsAuthErr dsNoCredMsg poolAB none "sid0"
    oracle401 "t" 0 0 "e401" (stampEntry "t" witEntry)
  have h4 := H.2.2.2.1 (by decide) rfl (by decide) "s1" rfl rfl
  have h6 := (H.2.2.2.2.2.1 (by decide) rfl (by decide)).2.2.2
    (stampEntry "t" witEntryB) (by decide) (by decide) rfl
  exact ⟨⟨by decide, rfl, by decide, rfl, rfl, by decide, by decide, by decide⟩,
    h4.1, h4.2, h6.1, h6.2⟩

end Freeseek
